import Mathlib

/-!
Shallow embedding of the xinyun rust-core card game engine
(src/rust-core/src/game/{state,effects,rules}.rs and src/rust-core/src/ai/minimax.rs).

Conventions of the embedding:
* Rust `i16`/`i8` values (health, attack, amounts, priorities) are modelled as `Int`;
  `u8`/`u32`/`usize` values (mana, armor, cost, counters, identifiers) as `Nat`.
  No claim under scrutiny depends on fixed-width wrap-around.
* In-place mutation through `&mut` is modelled by explicit state passing: an operation
  returns its result together with the state as the caller observes it afterwards,
  including on the error path.
* `f64` scores of the AI are modelled as exact rationals; `f64` infinities get an
  explicit three-way score type.  The external PRNG (rand crate) and wall clock
  (js Date.now) are modelled as oracle streams threaded through the agent.
-/

namespace Xinyun

abbrev CardId := Nat
abbrev PlayerId := Nat
abbrev EffectId := Nat

inductive VictoryReason
  | healthDepleted (loser : PlayerId)
  | deckOut (loser : PlayerId)
  | special (reason : String)
  deriving DecidableEq, Repr

structure VictoryState where
  winner : PlayerId
  reason : VictoryReason
  deriving DecidableEq, Repr

inductive CardType
  | unit
  | spell
  deriving DecidableEq, Repr

inductive EffectTrigger
  | onPlay
  | onDeath
  | onTurnStart
  | onTurnEnd
  | onAttack
  | passive
  deriving DecidableEq, Repr

inductive EffectTarget
  | contextTarget
  | sourcePlayer
  | targetPlayer
  | opponentOfSource
  deriving DecidableEq, Repr

/-- EffectCondition from effects.rs (Any / All are nested lists). -/
inductive EffectCondition
  | playerHealthBelow (target : EffectTarget) (threshold : Int)
  | playerManaAtLeast (target : EffectTarget) (amount : Nat)
  | boardCountAtLeast (target : EffectTarget) (min : Nat)
  | anyOf (conditions : List EffectCondition)
  | allOf (conditions : List EffectCondition)

/-- EffectKind from effects.rs. -/
inductive EffectKind
  | directDamage (amount : Int) (target : EffectTarget)
  | heal (amount : Int) (target : EffectTarget)
  | drawCard (count : Nat) (target : EffectTarget)
  | composite (effects : List EffectKind)
  | conditional (condition : EffectCondition) (effect : EffectKind)

structure CardEffect where
  id : EffectId
  description : String
  trigger : EffectTrigger
  priority : Int
  kind : EffectKind
  condition : Option EffectCondition

structure Card where
  id : CardId
  name : String
  cost : Nat
  attack : Int
  health : Int
  card_type : CardType
  exhausted : Bool
  effects : List CardEffect

instance : Inhabited Card :=
  ⟨{ id := 0, name := "", cost := 0, attack := 0, health := 0, card_type := .unit,
     exhausted := false, effects := [] }⟩

structure Player where
  id : PlayerId
  health : Int
  armor : Nat
  mana : Nat
  hand : List Card
  board : List Card
  deck : List Card

instance : Inhabited Player :=
  ⟨{ id := 0, health := 0, armor := 0, mana := 0, hand := [], board := [], deck := [] }⟩

inductive GamePhase
  | mulligan
  | main
  | combat
  | endPhase
  deriving DecidableEq, Repr

inductive GameEvent
  | cardDrawn (player_id : PlayerId) (card_id : CardId)
  | cardPlayed (player_id : PlayerId) (card_id : CardId) (target_id : Option CardId)
  | attackDeclared (attacker_owner : PlayerId) (attacker_id : CardId)
      (defender_owner : PlayerId) (defender_id : Option CardId)
  | damageResolved (source_player : PlayerId) (source_card : Option CardId)
      (target_player : PlayerId) (target_card : Option CardId) (amount : Int)
  | cardHealed (player_id : PlayerId) (card_id : Option CardId) (amount : Int)
  | cardDestroyed (player_id : PlayerId) (card : Card)
  | cardBurned (player_id : PlayerId) (card : Card)
  | mulliganApplied (player_id : PlayerId) (replaced : List CardId)
  | turnEnded (player_id : PlayerId)
  | gameWon (winner : PlayerId) (reason : VictoryReason)

inductive IntegrityError
  | invalidPlayerIndex (player_id : PlayerId)
  | duplicateCardId (card_id : CardId)
  | negativeHealth (player_id : PlayerId) (value : Int)
  | manaOutOfRange (player_id : PlayerId) (value : Nat)
  deriving DecidableEq, Repr

structure GameState where
  players : List Player
  current_player : PlayerId
  turn : Nat
  phase : GamePhase
  max_hand_size : Nat
  max_board_size : Nat
  mulligan_completed : List PlayerId
  event_log : List GameEvent
  outcome : Option VictoryState

/-- Helper modelling mutation through a first-match `iter_mut().find` borrow. -/
def updateFirst (pr : α → Bool) (f : α → α) : List α → List α
  | [] => []
  | x :: xs => if pr x then f x :: xs else x :: updateFirst pr f xs

namespace GameState

def get_player (s : GameState) (id : PlayerId) : Option Player :=
  s.players.find? (fun p => p.id == id)

/-- Embedding of `get_player_mut` followed by a mutation of the found player. -/
def update_player (s : GameState) (id : PlayerId) (f : Player → Player) : GameState :=
  { s with players := updateFirst (fun p => p.id == id) f s.players }

def player_index (s : GameState) (id : PlayerId) : Option Nat :=
  s.players.findIdx? (fun p => p.id == id)

def opponent_of (s : GameState) (player_id : PlayerId) : Option PlayerId :=
  (s.players.find? (fun p => p.id != player_id)).map (·.id)

def is_finished (s : GameState) : Bool :=
  s.outcome.isSome

def record_event (s : GameState) (event : GameEvent) : GameState :=
  { s with event_log := s.event_log ++ [event] }

def mark_mulligan_completed (s : GameState) (player_id : PlayerId) : GameState :=
  if s.mulligan_completed.contains player_id then s
  else { s with mulligan_completed := s.mulligan_completed ++ [player_id] }

/-- The Rust method `mulligan_completed(&self, player_id)` (renamed: the field keeps the name). -/
def mulligan_done (s : GameState) (player_id : PlayerId) : Bool :=
  s.mulligan_completed.contains player_id

def all_mulligans_completed (s : GameState) : Bool :=
  s.players.all (fun p => s.mulligan_completed.contains p.id)

def declare_victory (s : GameState) (winner : PlayerId) (reason : VictoryReason) :
    VictoryState × GameState :=
  let victory : VictoryState := ⟨winner, reason⟩
  if s.outcome.isSome then (victory, s)
  else (victory, { s.record_event (.gameWon winner reason) with outcome := some victory })

def damage_player (s : GameState) (source_player : PlayerId) (source_card : Option CardId)
    (target_player : PlayerId) (amount : Int) : Option GameEvent × GameState :=
  match s.get_player target_player with
  | none => (none, s)
  | some player =>
    if amount ≤ 0 then (none, s)
    else
      let absorbed : Int := if player.armor > 0 then min amount (player.armor : Int) else 0
      let remaining : Int := amount - absorbed
      let health' : Int := if remaining > 0 then player.health - remaining else player.health
      let s1 := s.update_player target_player
        (fun p => { p with armor := p.armor - absorbed.toNat, health := health' })
      let event : GameEvent := .damageResolved source_player source_card target_player none amount
      let s2 :=
        if health' ≤ 0 then
          match s1.players.find? (fun p => p.id != target_player) with
          | some winner => (s1.declare_victory winner.id (.healthDepleted target_player)).2
          | none => s1
        else s1
      (some event, s2)

def damage_card (s : GameState) (source_player : PlayerId) (source_card : Option CardId)
    (target_player : PlayerId) (target_card : CardId) (amount : Int) :
    List GameEvent × GameState :=
  if amount ≤ 0 then ([], s)
  else
    match s.player_index target_player with
    | none => ([], s)
    | some pi =>
      let player := s.players.getD pi default
      match player.board.findIdx? (fun c => c.id == target_card) with
      | none => ([], s)
      | some pos =>
        let card := player.board.getD pos default
        let card' := { card with health := card.health - amount }
        let ev : GameEvent :=
          .damageResolved source_player source_card target_player (some target_card) amount
        if card'.health ≤ 0 then
          let board2 := (player.board.set pos card').eraseIdx pos
          ([ev, .cardDestroyed target_player card'],
            { s with players := s.players.set pi { player with board := board2 } })
        else
          ([ev],
            { s with players := s.players.set pi { player with board := player.board.set pos card' } })

def heal_player (s : GameState) (player_id : PlayerId) (amount : Int) :
    Option GameEvent × GameState :=
  if amount ≤ 0 then (none, s)
  else
    match s.get_player player_id with
    | none => (none, s)
    | some _ =>
      (some (.cardHealed player_id none amount),
        s.update_player player_id (fun p => { p with health := p.health + amount }))

def heal_card (s : GameState) (player_id : PlayerId) (card_id : CardId) (amount : Int) :
    Option GameEvent × GameState :=
  if amount ≤ 0 then (none, s)
  else
    match s.get_player player_id with
    | none => (none, s)
    | some player =>
      if player.board.any (fun c => c.id == card_id) then
        let healCard : Card → Card := fun c => { c with health := c.health + amount }
        (some (.cardHealed player_id (some card_id) amount),
          s.update_player player_id (fun p =>
            { p with board := updateFirst (fun c => c.id == card_id) healCard p.board }))
      else (none, s)

def draw_card (s : GameState) (player_id : PlayerId) : Option GameEvent × GameState :=
  match s.get_player player_id with
  | none => (none, s)
  | some player =>
    if player.deck.isEmpty then
      match s.opponent_of player_id with
      | some winner => (none, (s.declare_victory winner (.deckOut player_id)).2)
      | none => (none, s)
    else
      match player.deck.getLast? with
      | none => (none, s)
      | some card =>
        if player.hand.length ≥ s.max_hand_size then
          (some (.cardBurned player_id card),
            s.update_player player_id (fun p => { p with deck := p.deck.dropLast }))
        else
          (some (.cardDrawn player_id card.id),
            s.update_player player_id
              (fun p => { p with deck := p.deck.dropLast, hand := p.hand ++ [card] }))

def put_card_on_bottom_of_deck (s : GameState) (player_id : PlayerId) (card : Card) :
    GameState :=
  s.update_player player_id (fun p => { p with deck := card :: p.deck })

def ready_player (s : GameState) (player_id : PlayerId) : GameState :=
  match s.get_player player_id with
  | none => s
  | some _ =>
    let s1 := s.update_player player_id (fun p =>
      { p with board := p.board.map (fun c => { c with exhausted := false }),
               mana := min (p.mana + 1) 10 })
    match s1.get_player player_id with
    | none => s1
    | some p1 =>
      if p1.deck.isEmpty then s1
      else
        match s1.draw_card player_id with
        | (some event, s2) => s2.record_event event
        | (none, s2) => s2

def advance_phase (s : GameState) : GameState :=
  { s with phase :=
      match s.phase with
      | .mulligan => .main
      | .main => .combat
      | .combat => .endPhase
      | .endPhase => .main }

def start_turn (s : GameState) (player_id : PlayerId) : GameState :=
  ({ s with current_player := player_id, phase := .main }).ready_player player_id

def end_turn (s : GameState) : GameState :=
  match s.opponent_of s.current_player with
  | some next_player =>
    let s1 : GameState :=
      { s with current_player := next_player, turn := s.turn + 1, phase := .main }
    s1.ready_player next_player
  | none => s

def evaluate_victory (s : GameState) : Option VictoryState × GameState :=
  match s.outcome with
  | some outcome => (some outcome, s)
  | none =>
    let defeated := (s.players.filter (fun p => p.health ≤ 0)).map (·.id)
    if defeated.length = 1 then
      match s.opponent_of (defeated.getD 0 0) with
      | some winner =>
        let r := s.declare_victory winner (.healthDepleted (defeated.getD 0 0))
        (some r.1, r.2)
      | none => (none, s)
    else if defeated.length > 1 then
      match s.players.head? with
      | some first =>
        let r := s.declare_victory first.id (.special "Simultaneous defeat")
        (some r.1, r.2)
      | none => (none, s)
    else (none, s)

/-- Duplicate-id scan over one player's zones, threading the set of seen ids. -/
def scanCards : List CardId → List Card → Option CardId × List CardId
  | seen, [] => (none, seen)
  | seen, c :: cs =>
    if seen.contains c.id then (some c.id, seen)
    else scanCards (c.id :: seen) cs

def integrityLoop : List CardId → List Player → Option IntegrityError
  | _, [] => none
  | seen, p :: ps =>
    if p.health < -99 then some (.negativeHealth p.id p.health)
    else if p.mana > 20 then some (.manaOutOfRange p.id p.mana)
    else
      match scanCards seen (p.hand ++ p.board ++ p.deck) with
      | (some cid, _) => some (.duplicateCardId cid)
      | (none, seen') => integrityLoop seen' ps

/-- integrity_check; `none` is the Ok result. -/
def integrity_check (s : GameState) : Option IntegrityError :=
  if s.players.any (fun p => p.id == s.current_player) then integrityLoop [] s.players
  else some (.invalidPlayerIndex s.current_player)

end GameState

structure EffectContext where
  trigger : EffectTrigger
  source_player : PlayerId
  source_card : Option CardId
  target_player : Option PlayerId
  target_card : Option CardId
  current_player : PlayerId

/-- EffectContext::new. -/
def EffectContext.new (trigger : EffectTrigger) (source_player : PlayerId)
    (current_player : PlayerId) : EffectContext :=
  { trigger, source_player, source_card := none, target_player := none,
    target_card := none, current_player }

def EffectContext.with_source_card (ctx : EffectContext) (card_id : CardId) : EffectContext :=
  { ctx with source_card := some card_id }

def EffectContext.with_target_player (ctx : EffectContext) (player_id : PlayerId) :
    EffectContext :=
  { ctx with target_player := some player_id }

def EffectContext.with_target_card (ctx : EffectContext) (player_id : PlayerId)
    (card_id : CardId) : EffectContext :=
  { ctx with target_player := some player_id, target_card := some card_id }

def EffectTarget.resolve_player : EffectTarget → EffectContext → GameState → Option PlayerId
  | .contextTarget, ctx, _ => ctx.target_player
  | .sourcePlayer, ctx, _ => some ctx.source_player
  | .targetPlayer, ctx, _ => ctx.target_player
  | .opponentOfSource, ctx, s =>
    (s.players.find? (fun p => p.id != ctx.source_player)).map (·.id)

mutual

def EffectCondition.is_satisfied : EffectCondition → EffectContext → GameState → Bool
  | .playerHealthBelow target threshold, ctx, s =>
    match (target.resolve_player ctx s).bind s.get_player with
    | some player => decide (player.health < threshold)
    | none => false
  | .playerManaAtLeast target amount, ctx, s =>
    match (target.resolve_player ctx s).bind s.get_player with
    | some player => decide (player.mana ≥ amount)
    | none => false
  | .boardCountAtLeast target min, ctx, s =>
    match (target.resolve_player ctx s).bind s.get_player with
    | some player => decide (player.board.length ≥ min)
    | none => false
  | .anyOf conditions, ctx, s => anyConditionSatisfied conditions ctx s
  | .allOf conditions, ctx, s => allConditionSatisfied conditions ctx s

def anyConditionSatisfied : List EffectCondition → EffectContext → GameState → Bool
  | [], _, _ => false
  | c :: cs, ctx, s => c.is_satisfied ctx s || anyConditionSatisfied cs ctx s

def allConditionSatisfied : List EffectCondition → EffectContext → GameState → Bool
  | [], _, _ => true
  | c :: cs, ctx, s => c.is_satisfied ctx s && allConditionSatisfied cs ctx s

end

mutual

def EffectKind.can_trigger : EffectKind → EffectContext → GameState → Bool
  | .directDamage _ _, _, _ => true
  | .heal _ _, _, _ => true
  | .drawCard _ target, ctx, s =>
    match (target.resolve_player ctx s).bind s.get_player with
    | some player => !player.deck.isEmpty
    | none => false
  | .composite effects, ctx, s => anyKindTriggers effects ctx s
  | .conditional condition effect, ctx, s =>
    condition.is_satisfied ctx s && effect.can_trigger ctx s

def anyKindTriggers : List EffectKind → EffectContext → GameState → Bool
  | [], _, _ => false
  | k :: ks, ctx, s => k.can_trigger ctx s || anyKindTriggers ks ctx s

end

/-- The `for _ in 0..count` loop of EffectKind::DrawCard application. -/
def drawLoop : Nat → PlayerId → GameState → List GameEvent × GameState
  | 0, _, s => ([], s)
  | n + 1, p, s =>
    match s.draw_card p with
    | (some e, s1) =>
      let r := drawLoop n p s1
      (e :: r.1, r.2)
    | (none, s1) => drawLoop n p s1

mutual

def EffectKind.apply : EffectKind → EffectContext → GameState → List GameEvent × GameState
  | .directDamage amount target, ctx, s =>
    match ctx.target_card with
    | some card_id =>
      match ctx.target_player with
      | some target_owner => s.damage_card ctx.source_player ctx.source_card target_owner card_id amount
      | none => ([], s)
    | none =>
      match target.resolve_player ctx s with
      | some target_player =>
        match s.damage_player ctx.source_player ctx.source_card target_player amount with
        | (some event, s1) => ([event], s1)
        | (none, s1) => ([], s1)
      | none => ([], s)
  | .heal amount target, ctx, s =>
    match ctx.target_card with
    | some card_id =>
      match ctx.target_player with
      | some target_owner =>
        match s.heal_card target_owner card_id amount with
        | (some event, s1) => ([event], s1)
        | (none, s1) => ([], s1)
      | none => ([], s)
    | none =>
      match target.resolve_player ctx s with
      | some target_player =>
        match s.heal_player target_player amount with
        | (some event, s1) => ([event], s1)
        | (none, s1) => ([], s1)
      | none => ([], s)
  | .drawCard count target, ctx, s =>
    match target.resolve_player ctx s with
    | some target_player => drawLoop count target_player s
    | none => ([], s)
  | .composite effects, ctx, s => applyKindList effects ctx s
  | .conditional condition effect, ctx, s =>
    if condition.is_satisfied ctx s then effect.apply ctx s else ([], s)

def applyKindList : List EffectKind → EffectContext → GameState → List GameEvent × GameState
  | [], _, s => ([], s)
  | k :: ks, ctx, s =>
    let r := k.apply ctx s
    let r' := applyKindList ks ctx r.2
    (r.1 ++ r'.1, r'.2)

end

def CardEffect.can_trigger (effect : CardEffect) (ctx : EffectContext) (s : GameState) : Bool :=
  match effect.condition with
  | some condition => condition.is_satisfied ctx s && effect.kind.can_trigger ctx s
  | none => effect.kind.can_trigger ctx s

def CardEffect.apply (effect : CardEffect) (ctx : EffectContext) (s : GameState) :
    List GameEvent × GameState :=
  effect.kind.apply ctx s

structure StackItem where
  entry_id : EffectId
  priority : Int
  order : Nat
  effect : CardEffect
  context : EffectContext

/-- Strict order on stack items induced by the Rust `Ord` impl: `a` is strictly below `b`
when `b` wins a pop (higher priority, or same priority and smaller order counter). -/
def stackLT (a b : StackItem) : Bool :=
  a.priority < b.priority || (a.priority == b.priority && b.order < a.order)

structure EffectStack where
  items : List StackItem
  order : Nat

def EffectStack.empty : EffectStack := ⟨[], 0⟩

def EffectStack.push (st : EffectStack) (effect : CardEffect) (context : EffectContext) :
    EffectStack :=
  let ord := st.order + 1
  { items := st.items ++ [⟨effect.id, effect.priority, ord, effect, context⟩], order := ord }

/-- BinaryHeap::pop: remove and return a maximal item (unique when orders are distinct). -/
def popMax : List StackItem → Option (StackItem × List StackItem)
  | [] => none
  | x :: xs =>
    match popMax xs with
    | none => some (x, [])
    | some (m, rest) => if stackLT x m then some (m, x :: rest) else some (x, xs)

def queue_card_effects (st : EffectStack) (card : Card) (base_context : EffectContext) :
    EffectStack :=
  card.effects.foldl
    (fun acc effect =>
      if effect.trigger = base_context.trigger then acc.push effect base_context else acc)
    st

/-- The per-event body of resolve_all: record the event, and on CardDestroyed queue the
dead card's OnDeath effects. -/
def processEvents : List GameEvent → GameState → EffectStack → GameState × EffectStack
  | [], s, st => (s, st)
  | e :: es, s, st =>
    let s1 := s.record_event e
    let st1 :=
      match e with
      | .cardDestroyed player_id card =>
        queue_card_effects st card
          (((EffectContext.new .onDeath player_id s1.current_player).with_source_card card.id))
      | _ => st
    processEvents es s1 st1

/-- Sum over all boards of the per-card effect counts; the potential paid out when a card
dies and its OnDeath triggers are queued. -/
def boardBudget (s : GameState) : Nat :=
  (s.players.map (fun p => (p.board.map (fun c => c.effects.length)).sum)).sum

/-- Fuelled form of EffectEngine::resolve_all (the Rust loop runs until the heap is empty;
`stackMeasure` fuel provably suffices, see the termination theorem). -/
def resolve_all_fuel : Nat → EffectStack → GameState → List GameEvent × GameState × EffectStack
  | 0, st, s => ([], s, st)
  | fuel + 1, st, s =>
    match popMax st.items with
    | none => ([], s, st)
    | some (item, rest) =>
      let st1 : EffectStack := { st with items := rest }
      if item.effect.can_trigger item.context s then
        let r := item.effect.apply item.context s
        let ps := processEvents r.1 r.2 st1
        let rec' := resolve_all_fuel fuel ps.2 ps.1
        (r.1 ++ rec'.1, rec'.2)
      else resolve_all_fuel fuel st1 s

def stackMeasure (st : EffectStack) (s : GameState) : Nat :=
  st.items.length + boardBudget s

def resolve_all (st : EffectStack) (s : GameState) : List GameEvent × GameState × EffectStack :=
  resolve_all_fuel (stackMeasure st s) st s

structure PlayCardAction where
  player_id : PlayerId
  card_id : CardId
  target_player : Option PlayerId
  target_card : Option CardId
  deriving DecidableEq, Repr

structure AttackAction where
  attacker_owner : PlayerId
  attacker_id : CardId
  defender_owner : PlayerId
  defender_card : Option CardId
  deriving DecidableEq, Repr

structure MulliganAction where
  player_id : PlayerId
  replacements : List CardId
  deriving DecidableEq, Repr

inductive RuleError
  | gameFinished
  | notPlayerTurn
  | playerNotFound (player_id : PlayerId)
  | invalidPhase (expected : GamePhase) (actual : GamePhase)
  | cardNotFound (card_id : CardId)
  | invalidTarget
  | insufficientMana (required : Nat) (available : Nat)
  | cardTypeMismatch (expected : CardType) (actual : CardType)
  | unitExhausted (card_id : CardId)
  | invalidAttackTarget
  | attackerNotFound (card_id : CardId)
  | zeroAttackUnit (card_id : CardId)
  | boardFull
  | mulliganPhaseOnly
  | mulliganAlreadyCompleted (player_id : PlayerId)
  | integrityViolation (error : IntegrityError)
  deriving DecidableEq, Repr

namespace RuleEngine

mutual

def requires_target_kind : EffectKind → Bool
  | .directDamage _ target => target = .contextTarget
  | .heal _ target => target = .contextTarget
  | .drawCard _ target => target = .contextTarget
  | .composite effects => anyRequiresTarget effects
  | .conditional _ effect => requires_target_kind effect

def anyRequiresTarget : List EffectKind → Bool
  | [] => false
  | k :: ks => requires_target_kind k || anyRequiresTarget ks

end

def requires_target (card : Card) : Bool :=
  card.effects.any (fun effect => requires_target_kind effect.kind)

def build_context (action : PlayCardAction) (s : GameState) : EffectContext :=
  let ctx := (EffectContext.new .onPlay action.player_id s.current_player).with_source_card
    action.card_id
  match action.target_player with
  | some target_player =>
    match action.target_card with
    | some target_card => ctx.with_target_card target_player target_card
    | none => ctx.with_target_player target_player
  | none => ctx

/-- The straight-line validation prefix of RuleEngine::play_card, up to (and excluding)
the hand removal; returns the acting player's index and the card's hand index. -/
def play_card_gates (s : GameState) (action : PlayCardAction) : Except RuleError (Nat × Nat) :=
  if s.is_finished then .error .gameFinished else
  match s.integrity_check with
  | some error => .error (.integrityViolation error)
  | none =>
  if s.current_player ≠ action.player_id then .error .notPlayerTurn else
  if s.phase ≠ .main then .error (.invalidPhase .main s.phase) else
  if action.target_card.isSome && action.target_player.isNone then .error .invalidTarget else
  match action.target_player with
  | some target_player =>
    if (s.get_player target_player).isNone then .error .invalidTarget else
    match action.target_card with
    | some target_card =>
      let target_exists := ((s.get_player target_player).bind
        (fun player => player.board.find? (fun card => card.id == target_card))).isSome
      if ¬ target_exists then .error .invalidTarget else play_card_gates_tail s action
    | none => play_card_gates_tail s action
  | none => play_card_gates_tail s action
where
  play_card_gates_tail (s : GameState) (action : PlayCardAction) :
      Except RuleError (Nat × Nat) :=
    match s.player_index action.player_id with
    | none => .error (.cardNotFound action.card_id)
    | some player_index =>
      let player := s.players.getD player_index default
      match player.hand.findIdx? (fun card => card.id == action.card_id) with
      | none => .error (.cardNotFound action.card_id)
      | some hand_index =>
        let cost := (player.hand.getD hand_index default).cost
        if player.mana < cost then .error (.insufficientMana cost player.mana) else
        if (player.hand.getD hand_index default).card_type = .unit
            && player.board.length ≥ s.max_board_size then .error .boardFull
        else .ok (player_index, hand_index)

def play_card (s : GameState) (action : PlayCardAction) :
    Except RuleError (List GameEvent) × GameState :=
  match play_card_gates s action with
  | .error e => (.error e, s)
  | .ok (player_index, hand_index) =>
    let player := s.players.getD player_index default
    let card := player.hand.getD hand_index default
    let s1 : GameState :=
      { s with players :=
          s.players.set player_index { player with hand := player.hand.eraseIdx hand_index } }
    if requires_target card && action.target_player.isNone && action.target_card.isNone then
      (.error .invalidTarget, s1)
    else
      let player1 := s1.players.getD player_index default
      let s2 : GameState :=
        { s1 with players :=
            s1.players.set player_index { player1 with mana := player1.mana - card.cost } }
      let play_event : GameEvent := .cardPlayed action.player_id card.id action.target_card
      let s3 := s2.record_event play_event
      let context := build_context action s3
      let (st, s4) :=
        match card.card_type with
        | .unit =>
          let board_card := { card with exhausted := true }
          let player2 := s3.players.getD player_index default
          let player2' := { player2 with board := player2.board ++ [board_card] }
          let s4 : GameState := { s3 with players := s3.players.set player_index player2' }
          (queue_card_effects EffectStack.empty board_card context, s4)
        | .spell => (queue_card_effects EffectStack.empty card context, s3)
      let r := resolve_all st s4
      let v := r.2.1.evaluate_victory
      let victory_events : List GameEvent :=
        match v.1 with
        | some outcome => [.gameWon outcome.winner outcome.reason]
        | none => []
      (.ok (play_event :: r.1 ++ victory_events), v.2)

/-- The straight-line validation prefix of RuleEngine::attack; returns the attacker's
player index, board position, and a clone of the attacker card. -/
def attack_gates (s : GameState) (action : AttackAction) :
    Except RuleError (Nat × Nat × Card) :=
  if s.is_finished then .error .gameFinished else
  match s.integrity_check with
  | some error => .error (.integrityViolation error)
  | none =>
  if s.current_player ≠ action.attacker_owner then .error .notPlayerTurn else
  if s.phase ≠ .combat then .error (.invalidPhase .combat s.phase) else
  if (s.player_index action.defender_owner).isNone then .error .invalidTarget else
  if action.defender_owner = action.attacker_owner then .error .invalidAttackTarget else
  match s.player_index action.attacker_owner with
  | none => .error (.attackerNotFound action.attacker_id)
  | some attacker_index =>
    let attacker := s.players.getD attacker_index default
    match attacker.board.findIdx? (fun card => card.id == action.attacker_id) with
    | none => .error (.attackerNotFound action.attacker_id)
    | some attacker_pos =>
      let attacker_card_info := attacker.board.getD attacker_pos default
      if attacker_card_info.card_type ≠ .unit then
        .error (.cardTypeMismatch .unit attacker_card_info.card_type)
      else if attacker_card_info.exhausted then
        .error (.unitExhausted attacker_card_info.id)
      else if attacker_card_info.attack ≤ 0 then
        .error (.zeroAttackUnit attacker_card_info.id)
      else .ok (attacker_index, attacker_pos, attacker_card_info)

def recordAll (s : GameState) (events : List GameEvent) : GameState :=
  events.foldl (fun acc e => acc.record_event e) s

def attack (s : GameState) (action : AttackAction) :
    Except RuleError (List GameEvent) × GameState :=
  match attack_gates s action with
  | .error e => (.error e, s)
  | .ok (attacker_index, attacker_pos, attacker_card_info) =>
    let attack_ctx0 :=
      (EffectContext.new .onAttack action.attacker_owner s.current_player).with_source_card
        attacker_card_info.id
    let attack_ctx :=
      match action.defender_card with
      | some defender_card_id =>
        attack_ctx0.with_target_card action.defender_owner defender_card_id
      | none => attack_ctx0.with_target_player action.defender_owner
    let st := queue_card_effects EffectStack.empty attacker_card_info attack_ctx
    let attack_event : GameEvent :=
      .attackDeclared action.attacker_owner action.attacker_id action.defender_owner
        action.defender_card
    let s1 := s.record_event attack_event
    let attacker_attack := attacker_card_info.attack
    let attacker1 := s1.players.getD attacker_index default
    let exhaustedCard := { attacker1.board.getD attacker_pos default with exhausted := true }
    let attacker1' := { attacker1 with board := attacker1.board.set attacker_pos exhaustedCard }
    let s2 : GameState := { s1 with players := s1.players.set attacker_index attacker1' }
    let afterDamage : Except RuleError (List GameEvent × GameState) :=
      match action.defender_card with
      | some defender_card_id =>
        match s2.player_index action.defender_owner with
        | none => .error .invalidTarget
        | some defender_index =>
          match (s2.players.getD defender_index default).board.find?
              (fun card => card.id == defender_card_id) with
          | none => .error .invalidTarget
          | some defender_card =>
            let dmg := s2.damage_card action.attacker_owner (some attacker_card_info.id)
              action.defender_owner defender_card_id attacker_attack
            let s3 := recordAll dmg.2 dmg.1
            if defender_card.card_type = .unit && defender_card.attack > 0 then
              let ret := s3.damage_card action.defender_owner (some defender_card.id)
                action.attacker_owner action.attacker_id defender_card.attack
              .ok (dmg.1 ++ ret.1, recordAll ret.2 ret.1)
            else .ok (dmg.1, s3)
      | none =>
        match s2.damage_player action.attacker_owner (some action.attacker_id)
            action.defender_owner attacker_attack with
        | (some event, s3) => .ok ([event], s3.record_event event)
        | (none, s3) => .ok ([], s3)
    match afterDamage with
    | .error e => (.error e, s2)
    | .ok (damage_events, s5) =>
      let r := resolve_all st s5
      let v := r.2.1.evaluate_victory
      let victory_events : List GameEvent :=
        match v.1 with
        | some outcome => [.gameWon outcome.winner outcome.reason]
        | none => []
      (.ok (attack_event :: damage_events ++ r.1 ++ victory_events), v.2)

/-- Ascending `sort_unstable` on card ids. -/
def insertSorted (x : CardId) : List CardId → List CardId
  | [] => [x]
  | y :: ys => if x ≤ y then x :: y :: ys else y :: insertSorted x ys

def sortIds : List CardId → List CardId
  | [] => []
  | x :: xs => insertSorted x (sortIds xs)

/-- Vec::dedup — removes consecutive duplicates. -/
def dedupAdj : List CardId → List CardId
  | [] => []
  | [a] => [a]
  | a :: b :: rest => if a = b then dedupAdj (b :: rest) else a :: dedupAdj (b :: rest)

/-- The replacement loop of RuleEngine::mulligan; on error the player mutations made so
far remain visible, exactly as through the Rust `&mut` borrow. -/
def mulligan_loop : List CardId → Player → List CardId →
    (Except RuleError (List CardId)) × Player
  | [], player, replaced => (.ok replaced, player)
  | card_id :: restIds, player, replaced =>
    match player.hand.findIdx? (fun card => card.id == card_id) with
    | some pos =>
      let card := player.hand.getD pos default
      let player1 :=
        { player with hand := player.hand.eraseIdx pos, deck := card :: player.deck }
      mulligan_loop restIds player1 (replaced ++ [card_id])
    | none => (.error (.cardNotFound card_id), player)

/-- The redraw loop of RuleEngine::mulligan (draws are both recorded and returned). -/
def mulligan_draws : Nat → PlayerId → GameState → List GameEvent × GameState
  | 0, _, s => ([], s)
  | n + 1, player_id, s =>
    match s.draw_card player_id with
    | (some event, s1) =>
      let r := mulligan_draws n player_id (s1.record_event event)
      (event :: r.1, r.2)
    | (none, s1) => mulligan_draws n player_id s1

def mulligan (s : GameState) (action : MulliganAction) :
    Except RuleError (List GameEvent) × GameState :=
  if s.is_finished then (.error .gameFinished, s) else
  match s.integrity_check with
  | some error => (.error (.integrityViolation error), s)
  | none =>
  if s.phase ≠ .mulligan then (.error .mulliganPhaseOnly, s) else
  match s.player_index action.player_id with
  | none => (.error (.playerNotFound action.player_id), s)
  | some player_index =>
    if s.mulligan_done action.player_id then
      (.error (.mulliganAlreadyCompleted action.player_id), s)
    else
      let unique_replacements := dedupAdj (sortIds action.replacements)
      let player := s.players.getD player_index default
      let lr := mulligan_loop unique_replacements player []
      let s1 : GameState := { s with players := s.players.set player_index lr.2 }
      match lr.1 with
      | .error e => (.error e, s1)
      | .ok replaced_ids =>
        let dr := mulligan_draws replaced_ids.length action.player_id s1
        let mulligan_event : GameEvent := .mulliganApplied action.player_id replaced_ids
        let s2 := (dr.2.mark_mulligan_completed action.player_id).record_event mulligan_event
        let s3 :=
          if s2.all_mulligans_completed && s2.turn == 0 then { s2 with turn := 1 } else s2
        (.ok (dr.1 ++ [mulligan_event]), s3)

def process_turn_start (s : GameState) (player_id : PlayerId) :
    Except RuleError (List GameEvent) × GameState :=
  let s1 : GameState := { s with current_player := player_id, phase := .main }
  match s1.integrity_check with
  | some error => (.error (.integrityViolation error), s1)
  | none =>
    let board_snapshot :=
      match s1.player_index player_id with
      | some index => (s1.players.getD index default).board
      | none => []
    let st := board_snapshot.foldl
      (fun acc card =>
        queue_card_effects acc card
          ((EffectContext.new .onTurnStart player_id s1.current_player).with_source_card
            card.id))
      EffectStack.empty
    let r := resolve_all st s1
    let trigger_events := r.1
    let s2 := r.2.1
    if s2.is_finished then (.ok trigger_events, s2)
    else
      let s3 := s2.ready_player player_id
      let v := s3.evaluate_victory
      match v.1 with
      | some outcome =>
        (.ok (trigger_events ++ [.gameWon outcome.winner outcome.reason]), v.2)
      | none => (.ok trigger_events, v.2)

def start_turn (s : GameState) (player_id : PlayerId) :
    Except RuleError (List GameEvent) × GameState :=
  if s.is_finished then (.error .gameFinished, s) else
  match s.integrity_check with
  | some error => (.error (.integrityViolation error), s)
  | none =>
  if (s.player_index player_id).isNone then (.error (.playerNotFound player_id), s)
  else process_turn_start s player_id

def end_turn (s : GameState) : Except RuleError (List GameEvent) × GameState :=
  if s.is_finished then (.error .gameFinished, s) else
  match s.integrity_check with
  | some error => (.error (.integrityViolation error), s)
  | none =>
    let current := s.current_player
    let board_snapshot :=
      match s.player_index current with
      | some index => (s.players.getD index default).board
      | none => []
    let st := board_snapshot.foldl
      (fun acc card =>
        queue_card_effects acc card
          ((EffectContext.new .onTurnEnd current s.current_player).with_source_card card.id))
      EffectStack.empty
    let r := resolve_all st s
    let end_event : GameEvent := .turnEnded current
    let s1 := r.2.1.record_event end_event
    let events := r.1 ++ [end_event]
    let v := s1.evaluate_victory
    match v.1 with
    | some outcome => (.ok (events ++ [.gameWon outcome.winner outcome.reason]), v.2)
    | none =>
      let next_player := v.2.opponent_of current
      let s2 := v.2.end_turn
      if s2.is_finished then (.ok events, s2)
      else
        match next_player with
        | some np =>
          if (s2.player_index np).isSome then
            match process_turn_start s2 np with
            | (.ok start_events, s3) => (.ok (events ++ start_events), s3)
            | (.error e, s3) => (.error e, s3)
          else (.ok events, s2)
        | none => (.ok events, s2)

def advance_phase (s : GameState) : Except RuleError GamePhase × GameState :=
  if s.is_finished then (.error .gameFinished, s) else
  match s.integrity_check with
  | some error => (.error (.integrityViolation error), s)
  | none =>
    let s1 := s.advance_phase
    (.ok s1.phase, s1)

end RuleEngine

/-! Concrete scenario states used by the claim theorems. -/

def mkPlayer (id : PlayerId) (health : Int) (mana : Nat) (hand board deck : List Card) :
    Player :=
  { id, health, armor := 0, mana, hand, board, deck }

def mkState (players : List Player) (cur : PlayerId) (phase : GamePhase) : GameState :=
  { players, current_player := cur, turn := 1, phase, max_hand_size := 10,
    max_board_size := 7, mulligan_completed := [], event_log := [], outcome := none }

def fireballEffect : CardEffect :=
  { id := 101, description := "ignite", trigger := .onPlay, priority := 5,
    kind := .directDamage 6 .contextTarget, condition := none }

def fireballCard : Card :=
  { id := 1, name := "Fireball", cost := 4, attack := 0, health := 0, card_type := .spell,
    exhausted := false, effects := [fireballEffect] }

def C1State : GameState :=
  mkState [mkPlayer 0 30 5 [fireballCard] [] [], mkPlayer 1 30 4 [] [] []] 0 .main

def C1Action : PlayCardAction := ⟨0, 1, none, none⟩

def healerEffect : CardEffect :=
  { id := 9001, description := "Healer", trigger := .onTurnStart, priority := 1,
    kind := .heal 2 .sourcePlayer, condition := none }

def healerCard : Card :=
  { id := 100, name := "Turn Healer", cost := 2, attack := 2, health := 3, card_type := .unit,
    exhausted := true, effects := [healerEffect] }

def filler (id : CardId) : Card :=
  { id, name := "Deck Filler", cost := 1, attack := 1, health := 1, card_type := .unit,
    exhausted := true, effects := [] }

/-- The scenario of claim C2 with a two-card deck for player 1: player 0 is current, player
1's board holds a unit with an OnTurnStart Heal(2) effect targeting SourcePlayer, and both
decks are non-empty. -/
def C2State : GameState :=
  mkState [mkPlayer 0 30 3 [] [] [filler 101],
    mkPlayer 1 25 3 [] [healerCard] [filler 102, filler 103]] 0 .main

def compositeDrawEffect : CardEffect :=
  { id := 300, description := "combo", trigger := .onPlay, priority := 5,
    kind := .composite [.heal 1 .sourcePlayer, .drawCard 1 .sourcePlayer], condition := none }

def standaloneDrawEffect : CardEffect :=
  { id := 301, description := "insight", trigger := .onPlay, priority := 4,
    kind := .drawCard 1 .sourcePlayer, condition := none }

/-- A state whose source player (0) has an empty deck while the opponent (1) does not. -/
def C10State : GameState :=
  mkState [mkPlayer 0 30 5 [] [] [], mkPlayer 1 30 4 [] [] [filler 50]] 0 .main

def C10Ctx : EffectContext := (EffectContext.new .onPlay 0 0).with_source_card 99

def FinishedState : GameState :=
  { mkState [mkPlayer 0 30 5 [] [] [], mkPlayer 1 30 4 [] [] []] 0 .main with
      outcome := some ⟨0, .special "done"⟩ }

def itemA : StackItem := ⟨1, 5, 1, fireballEffect, C10Ctx⟩

def itemB : StackItem := ⟨2, 5, 2, standaloneDrawEffect, C10Ctx⟩

/-- Weight of one game event for the resolution termination measure: a CardDestroyed
event may queue at most as many OnDeath triggers as the dead card has effects. -/
def dBudget : GameEvent → Nat
  | .cardDestroyed _ card => card.effects.length
  | _ => 0

def destroyedBudget (evs : List GameEvent) : Nat := (evs.map dBudget).sum

/-- Per-player share of the termination potential. -/
def playerBudget (p : Player) : Nat := (p.board.map (fun c => c.effects.length)).sum

/-- Effect count of a card (the card's share of the termination potential). -/
def effLen (c : Card) : Nat := c.effects.length

def DrawState : GameState :=
  mkState [mkPlayer 0 30 5 [] [] [filler 60, filler 61], mkPlayer 1 30 4 [] [] []] 0 .main

/-- Armor after damage as the claim states it: saturating subtraction. -/
def armorAfter (armor : Nat) (amt : Int) : Nat := armor - amt.toNat

/-- Health after damage as the claim states it: the remainder beyond armor is applied. -/
def healthAfter (health : Int) (armor : Nat) (amt : Int) : Int :=
  health - max (amt - (armor : Int)) 0

def DmgState : GameState :=
  mkState [{ mkPlayer 0 5 5 [] [] [] with armor := 2 }, mkPlayer 1 30 4 [] [] []] 0 .main

/-- Attacking unit for the combat scenario: 3 attack, not exhausted. -/
def C8Attacker : Card :=
  { id := 10, name := "Striker", cost := 3, attack := 3, health := 5, card_type := .unit,
    exhausted := false, effects := [] }

/-- Defending unit for the combat scenario: 2 attack, so it retaliates. -/
def C8Defender : Card :=
  { id := 20, name := "Guard", cost := 2, attack := 2, health := 4, card_type := .unit,
    exhausted := false, effects := [] }

def C8State : GameState :=
  mkState [mkPlayer 0 30 5 [] [C8Attacker] [], mkPlayer 1 30 4 [] [C8Defender] []] 0 .combat

def C8Action : AttackAction := ⟨0, 10, 1, some 20⟩

/-! AI layer (src/rust-core/src/ai/minimax.rs).  `f64` scores are exact rationals with an
explicit three-way `Score` type for the `NEG_INFINITY`/`INFINITY` sentinels; the agent's
PRNG (the external rand crate's SmallRng) and the wall clock (web_sys `Date.now`) are
modelled as oracle streams threaded through the computation. -/

inductive GameAction
  | playCard (action : PlayCardAction)
  | mulligan (action : MulliganAction)
  | attack (action : AttackAction)
  | endTurn
  deriving DecidableEq, Repr

inductive AiStrategy
  | aggressive
  | control
  | combo
  | random
  | adaptive
  deriving DecidableEq, Repr

/-- AiConfig; `time_limit` is the Duration in milliseconds. -/
structure AiConfig where
  depth : Nat
  randomness : ℚ
  time_limit : ℚ
  strategy : AiStrategy

/-- An f64 score: a finite value or one of the two infinity sentinels of the search. -/
inductive Score
  | ninf
  | val (q : ℚ)
  | pinf
  deriving DecidableEq, Repr

def Score.le : Score → Score → Bool
  | .ninf, _ => true
  | .val _, .ninf => false
  | .val a, .val b => a ≤ b
  | .val _, .pinf => true
  | .pinf, .pinf => true
  | .pinf, _ => false

def Score.lt : Score → Score → Bool
  | .ninf, .ninf => false
  | .ninf, _ => true
  | .val _, .ninf => false
  | .val a, .val b => a < b
  | .val _, .pinf => true
  | .pinf, _ => false

/-- f64::max. -/
def Score.maxS (a b : Score) : Score := if Score.lt a b then b else a

/-- f64::min. -/
def Score.minS (a b : Score) : Score := if Score.lt b a then b else a

/-- Adding a finite f64 value (the comparison noise) to a score. -/
def Score.addQ : Score → ℚ → Score
  | .ninf, _ => .ninf
  | .val a, q => .val (a + q)
  | .pinf, _ => .pinf

/-- Modelled from the spec: the agent's PRNG is `rand::rngs::SmallRng`, whose code is
not part of this repository.  It is an oracle: a stream of permutations (each given as
the list of source indices, used by `shuffle`) and a stream of unit-interval draws
(used by `gen::<f64>()`), advanced by the counter `k` on every use. -/
structure Rng where
  perms : Nat → List Nat
  floats : Nat → ℚ
  k : Nat

/-- Apply a permutation given as the list of source indices. -/
def applyPerm (p : List Nat) (l : List α) : List α :=
  p.filterMap (fun i => l[i]?)

def Rng.shuffleList (r : Rng) (l : List α) : List α × Rng :=
  (applyPerm (r.perms r.k) l, { r with k := r.k + 1 })

def Rng.genFloat (r : Rng) : ℚ × Rng :=
  (r.floats r.k, { r with k := r.k + 1 })

/-- Modelled from the spec: `Date.now()` of web_sys, the external millisecond clock, as
an oracle stream of readings advanced on every call. -/
structure Clock where
  times : Nat → ℚ
  k : Nat

/-- WasmInstant::now reads the clock. -/
def Clock.now (c : Clock) : ℚ × Clock :=
  (c.times c.k, { c with k := c.k + 1 })

/-- WasmInstant::elapsed: a fresh reading minus the start timestamp, as whole
milliseconds (the `as u64` cast saturates below zero and truncates). -/
def wasmElapsed (start : ℚ) (c : Clock) : Nat × Clock :=
  let p := c.now
  ((⌊max (p.1 - start) 0⌋).toNat, p.2)

structure RuleResolution where
  state : GameState
  events : List GameEvent
  victory : Option VictoryState

/-- RuleResolution::new appends a GameWon event when the outcome is set but no such
event was recorded. -/
def RuleResolution.new (state : GameState) (events : List GameEvent) : RuleResolution :=
  match state.outcome with
  | some outcome =>
    let has_event := events.any (fun e => match e with | .gameWon _ _ => true | _ => false)
    if has_event then { state, events, victory := some outcome }
    else { state, events := events ++ [.gameWon outcome.winner outcome.reason],
           victory := some outcome }
  | none => { state, events, victory := none }

structure AiDecision where
  action : Option GameAction
  evaluation : Score
  depth_reached : Nat
  nodes : Nat
  timed_out : Bool
  duration_ms : Nat
  resolution : Option RuleResolution
  strategy : AiStrategy

structure SearchStats where
  nodes : Nat
  depth_reached : Nat
  timed_out : Bool

def SearchStats.new : SearchStats := ⟨0, 0, false⟩

/-- The agent: its config and its PRNG state (`&mut self` is explicit state passing). -/
structure AiAgent where
  config : AiConfig
  rng : Rng

/-- AiAgent::simulate_state: run the action on a clone through a fresh RuleEngine;
the clone is discarded on error. -/
def simulate_state (state : GameState) (action : GameAction) : Except RuleError GameState :=
  match action with
  | .playCard a =>
    match RuleEngine.play_card state a with
    | (.ok _, next) => .ok next
    | (.error e, _) => .error e
  | .mulligan a =>
    match RuleEngine.mulligan state a with
    | (.ok _, next) => .ok next
    | (.error e, _) => .error e
  | .attack a =>
    match RuleEngine.attack state a with
    | (.ok _, next) => .ok next
    | (.error e, _) => .error e
  | .endTurn =>
    match RuleEngine.end_turn state with
    | (.ok _, next) => .ok next
    | (.error e, _) => .error e

def simulate_resolution (state : GameState) (action : GameAction) :
    Except RuleError RuleResolution :=
  match action with
  | .playCard a =>
    match RuleEngine.play_card state a with
    | (.ok events, next) => .ok (RuleResolution.new next events)
    | (.error e, _) => .error e
  | .mulligan a =>
    match RuleEngine.mulligan state a with
    | (.ok events, next) => .ok (RuleResolution.new next events)
    | (.error e, _) => .error e
  | .attack a =>
    match RuleEngine.attack state a with
    | (.ok events, next) => .ok (RuleResolution.new next events)
    | (.error e, _) => .error e
  | .endTurn =>
    match RuleEngine.end_turn state with
    | (.ok events, next) => .ok (RuleResolution.new next events)
    | (.error e, _) => .error e

def board_value (cards : List Card) : ℚ :=
  (cards.map (fun card =>
    let atk : ℚ := ((max card.attack 0 : Int) : ℚ)
    let hp : ℚ := ((max card.health 0 : Int) : ℚ)
    atk * 1.6 + hp)).sum

def combo_potential (cards : List Card) : ℚ :=
  (cards.map (fun card =>
    let effect_score : ℚ := (card.effects.length : ℚ)
    let spell_bonus : ℚ := if card.card_type = .spell then 1.0 else 0.0
    effect_score * 0.8 + spell_bonus)).sum

def evaluation_components (state : GameState) (player_id : PlayerId) : ℚ × ℚ × ℚ × ℚ × ℚ :=
  match state.get_player player_id with
  | none => (0, 0, 0, 0, 0)
  | some player =>
    let opponent_id := (state.opponent_of player_id).getD player_id
    let opponent := state.get_player opponent_id
    let hero_diff : ℚ := ((player.health + player.armor : Int) : ℚ)
      - ((opponent.map (fun p => ((p.health + p.armor : Int) : ℚ))).getD 0)
    let board_diff : ℚ := board_value player.board
      - ((opponent.map (fun p => board_value p.board)).getD 0)
    let hand_diff : ℚ := (player.hand.length : ℚ)
      - ((opponent.map (fun p => (p.hand.length : ℚ))).getD 0)
    let mana_diff : ℚ := (player.mana : ℚ) - ((opponent.map (fun p => (p.mana : ℚ))).getD 0)
    let combo_value := combo_potential player.hand
    (hero_diff, board_diff, hand_diff, mana_diff, combo_value)

structure StrategyWeights where
  hero : ℚ
  board : ℚ
  hand : ℚ
  mana : ℚ
  combo : ℚ

def adaptive_weights (hero_diff board_diff : ℚ) : StrategyWeights :=
  let hero_weight : ℚ := if hero_diff < 0 then 2.6 else 1.4
  let board_weight : ℚ := if board_diff < 0 then 2.8 else 1.6
  { hero := hero_weight, board := board_weight, hand := 1.3, mana := 0.9, combo := 1.1 }

/-- AiAgent::evaluate (reads only the strategy from the config). -/
def evaluate (cfg : AiConfig) (state : GameState) (player_id : PlayerId) : ℚ :=
  match state.outcome with
  | some outcome => if outcome.winner = player_id then 1000000 else -1000000
  | none =>
  match state.get_player player_id with
  | none => -1000000
  | some player =>
    let opponent_id := (state.opponent_of player_id).getD player_id
    let opponent := state.get_player opponent_id
    let comps := evaluation_components state player_id
    let hero_diff := comps.1
    let board_diff := comps.2.1
    let hand_diff := comps.2.2.1
    let mana_diff := comps.2.2.2.1
    let combo_value := comps.2.2.2.2
    let weights : StrategyWeights :=
      match cfg.strategy with
      | .aggressive => { hero := 3.0, board := 1.2, hand := 0.6, mana := 0.4, combo := 0.4 }
      | .control => { hero := 1.2, board := 2.4, hand := 1.6, mana := 0.8, combo := 0.5 }
      | .combo => { hero := 1.0, board := 1.4, hand := 1.8, mana := 0.9, combo := 2.6 }
      | .adaptive => adaptive_weights hero_diff board_diff
      | .random => { hero := 1.0, board := 1.0, hand := 1.0, mana := 0.5, combo := 0.3 }
    let armor_bonus : ℚ :=
      ((player.armor : ℚ) - ((opponent.map (fun p => (p.armor : ℚ))).getD 0)) * 0.6
    let turn_bonus : ℚ := if state.current_player = player_id then 0.3 else -0.3
    hero_diff * weights.hero + board_diff * weights.board + hand_diff * weights.hand
      + mana_diff * weights.mana + combo_value * weights.combo + armor_bonus + turn_bonus

def random_noise (cfg : AiConfig) (r : Rng) : ℚ × Rng :=
  if cfg.randomness ≤ 0 then (0, r)
  else
    let p := r.genFloat
    ((p.1 - 0.5) * 2.0 * cfg.randomness, p.2)

/-- One `WasmInstant::now() >= deadline` poll inside a loop; `true` means break/return. -/
def pollDeadline (deadline : Option ℚ) (c : Clock) : Bool × Clock :=
  match deadline with
  | none => (false, c)
  | some dl =>
    let p := c.now
    (decide (dl ≤ p.1), p.2)

/-- The play-card candidate list built for one hand card. -/
def candPlays (state : GameState) (actor : PlayerId) (card : Card) : List PlayCardAction :=
  let base : List PlayCardAction := [⟨actor, card.id, none, none⟩]
  match state.opponent_of actor with
  | none => base
  | some opponent =>
    let withOpp := base ++ [⟨actor, card.id, some opponent, none⟩]
    match state.get_player opponent with
    | none => withOpp
    | some opponent_player =>
      withOpp ++ (opponent_player.board.take 4).map
        (fun tgt => (⟨actor, card.id, some opponent, some tgt.id⟩ : PlayCardAction))

/-- The attack candidate list built for one board card. -/
def candAttacks (actor opponent : PlayerId) (defender_board : List CardId) (card : Card) :
    List AttackAction :=
  (⟨actor, card.id, opponent, none⟩ : AttackAction)
    :: (defender_board.take 4).map
      (fun d => (⟨actor, card.id, opponent, some d⟩ : AttackAction))

/-- The inner candidate loop: dedup against `seen`, simulate, keep the successes. -/
def tryActions (state : GameState) : List GameAction → List GameAction →
    List (GameAction × GameState) → List GameAction × List (GameAction × GameState)
  | [], seen, actions => (seen, actions)
  | a :: rest, seen, actions =>
    if seen.contains a then tryActions state rest seen actions
    else
      match simulate_state state a with
      | .ok new_state => tryActions state rest (seen ++ [a]) (actions ++ [(a, new_state)])
      | .error _ => tryActions state rest seen actions

/-- The playable-cards loop of generate_transitions (polls the deadline per card). -/
def handLoop (state : GameState) (actor : PlayerId) (mana : Nat) (deadline : Option ℚ) :
    List Card → List GameAction → List (GameAction × GameState) → Clock →
    List GameAction × List (GameAction × GameState) × Clock
  | [], seen, actions, c => (seen, actions, c)
  | card :: rest, seen, actions, c =>
    let poll := pollDeadline deadline c
    if poll.1 then (seen, actions, poll.2)
    else if mana < card.cost then handLoop state actor mana deadline rest seen actions poll.2
    else
      let cands := (candPlays state actor card).map (fun a => GameAction.playCard a)
      let sa := tryActions state cands seen actions
      handLoop state actor mana deadline rest sa.1 sa.2 poll.2

/-- The attacks loop of generate_transitions (polls the deadline per attacker). -/
def attackLoop (state : GameState) (actor opponent : PlayerId) (defender_board : List CardId)
    (deadline : Option ℚ) :
    List Card → List GameAction → List (GameAction × GameState) → Clock →
    List GameAction × List (GameAction × GameState) × Clock
  | [], seen, actions, c => (seen, actions, c)
  | card :: rest, seen, actions, c =>
    let poll := pollDeadline deadline c
    if poll.1 then (seen, actions, poll.2)
    else if card.exhausted || card.attack ≤ 0 then
      attackLoop state actor opponent defender_board deadline rest seen actions poll.2
    else
      let cands := (candAttacks actor opponent defender_board card).map
        (fun a => GameAction.attack a)
      let sa := tryActions state cands seen actions
      attackLoop state actor opponent defender_board deadline rest sa.1 sa.2 poll.2

/-- AiAgent::generate_transitions. -/
def generate_transitions (cfg : AiConfig) (r : Rng) (c : Clock) (state : GameState)
    (actor : PlayerId) (deadline : Option ℚ) :
    List (GameAction × GameState) × Rng × Clock :=
  let poll := pollDeadline deadline c
  if poll.1 then ([], r, poll.2)
  else if state.current_player ≠ actor then
    match simulate_state state .endTurn with
    | .ok new_state => ([(GameAction.endTurn, new_state)], r, poll.2)
    | .error _ => ([], r, poll.2)
  else
    let sac :=
      match state.get_player actor with
      | none => (([] : List GameAction), ([] : List (GameAction × GameState)), poll.2)
      | some player =>
        let h := handLoop state actor player.mana deadline player.hand [] [] poll.2
        match state.opponent_of actor with
        | none => h
        | some opponent =>
          let defender_board : List CardId :=
            ((state.get_player opponent).map (fun (p : Player) => p.board.map (fun (cd : Card) => cd.id))).getD []
          attackLoop state actor opponent defender_board deadline player.board h.1 h.2.1 h.2.2
    let actions2 :=
      if sac.1.contains GameAction.endTurn then sac.2.1
      else
        match simulate_state state .endTurn with
        | .ok new_state => sac.2.1 ++ [(GameAction.endTurn, new_state)]
        | .error _ => sac.2.1
    if 0 < cfg.randomness then
      let sh := r.shuffleList actions2
      (sh.1, sh.2, sac.2.2)
    else (actions2, r, sac.2.2)

def aggressive_score (base : GameState) (action_state : GameAction × GameState)
    (player_id : PlayerId) : ℚ :=
  let new_state := action_state.2
  let opponent_before : ℚ :=
    (((base.opponent_of player_id).bind (fun id => base.get_player id)).map
      (fun p => ((p.health + p.armor : Int) : ℚ))).getD 0
  let opponent_after : ℚ :=
    (((new_state.opponent_of player_id).bind (fun id => new_state.get_player id)).map
      (fun p => ((p.health + p.armor : Int) : ℚ))).getD 0
  let damage := opponent_before - opponent_after
  let attacker_board : ℚ :=
    ((new_state.get_player player_id).map (fun p => board_value p.board)).getD 0
  damage + attacker_board

def control_score (base : GameState) (action_state : GameAction × GameState)
    (player_id : PlayerId) : ℚ :=
  let new_state := action_state.2
  let board_before : ℚ := ((base.get_player player_id).map (fun p => board_value p.board)).getD 0
  let board_after : ℚ :=
    ((new_state.get_player player_id).map (fun p => board_value p.board)).getD 0
  let opponent_board : ℚ :=
    (((new_state.opponent_of player_id).bind (fun id => new_state.get_player id)).map
      (fun p => board_value p.board)).getD 0
  (board_after - board_before) - opponent_board

def combo_score (base : GameState) (action_state : GameAction × GameState)
    (player_id : PlayerId) : ℚ :=
  let new_state := action_state.2
  let combo_before : ℚ :=
    ((base.get_player player_id).map (fun p => combo_potential p.hand)).getD 0
  let combo_after : ℚ :=
    ((new_state.get_player player_id).map (fun p => combo_potential p.hand)).getD 0
  let board_combo : ℚ :=
    ((new_state.get_player player_id).map (fun p => combo_potential p.board)).getD 0
  combo_before - combo_after + board_combo

/-- Stable insertion for the descending `sort_by` comparator: a later element passes
every earlier one whose score is at least its own (ties keep the original order, as
Rust's stable sort does). -/
def insertDesc (score : GameAction × GameState → ℚ) (x : GameAction × GameState) :
    List (GameAction × GameState) → List (GameAction × GameState)
  | [] => [x]
  | y :: ys => if score y < score x then x :: y :: ys else y :: insertDesc score x ys

/-- The stable descending sort used by prioritize_actions (stable sorts agree on their
output, so insertion sort stands in for Rust's stable merge sort). -/
def sortByScoreDesc (score : GameAction × GameState → ℚ)
    (l : List (GameAction × GameState)) : List (GameAction × GameState) :=
  l.foldl (fun acc x => insertDesc score x acc) []

/-- AiAgent::prioritize_actions (pure: it never touches the PRNG or the clock). -/
def prioritize_actions (cfg : AiConfig) (base_state : GameState)
    (actions : List (GameAction × GameState)) (strategy : AiStrategy)
    (player_id : PlayerId) : List (GameAction × GameState) :=
  if actions.length ≤ 1 then actions
  else
    match strategy with
    | .random => actions
    | .aggressive => sortByScoreDesc (fun p => aggressive_score base_state p player_id) actions
    | .control => sortByScoreDesc (fun p => control_score base_state p player_id) actions
    | .combo => sortByScoreDesc (fun p => combo_score base_state p player_id) actions
    | .adaptive => sortByScoreDesc (fun p => evaluate cfg p.2 player_id) actions

mutual

/-- AiAgent::minimax_rec. -/
def minimax_rec (cfg : AiConfig) (state : GameState) (depth_remaining : Nat)
    (alpha beta : Score) (root_player : PlayerId) (deadline : Option ℚ)
    (stats : SearchStats) (r : Rng) (c : Clock) : Score × SearchStats × Rng × Clock :=
  let stats1 := { stats with nodes := stats.nodes + 1 }
  let depth_explored := cfg.depth - depth_remaining
  let stats2 := if stats1.depth_reached < depth_explored
    then { stats1 with depth_reached := depth_explored } else stats1
  let poll := pollDeadline deadline c
  if poll.1 then
    (.val (evaluate cfg state root_player), { stats2 with timed_out := true }, r, poll.2)
  else if depth_remaining = 0 ∨ state.is_finished then
    (.val (evaluate cfg state root_player), stats2, r, poll.2)
  else
    let actor := state.current_player
    let maximizing_player := actor = root_player
    let g := generate_transitions cfg r poll.2 state actor deadline
    let transitions := prioritize_actions cfg state g.1 cfg.strategy root_player
    if transitions.isEmpty then
      (.val (evaluate cfg state root_player), stats2, g.2.1, g.2.2)
    else if maximizing_player then
      minimaxLoop cfg true transitions (depth_remaining - 1) Score.ninf alpha beta
        root_player deadline stats2 g.2.1 g.2.2
    else
      minimaxLoop cfg false transitions (depth_remaining - 1) Score.pinf alpha beta
        root_player deadline stats2 g.2.1 g.2.2
termination_by (depth_remaining, 0, 0)

/-- The alpha-beta fold inside minimax_rec (`depth_next` is the decremented depth the
recursive calls receive). -/
def minimaxLoop (cfg : AiConfig) (maximizing : Bool) (ts : List (GameAction × GameState))
    (depth_next : Nat) (value alpha beta : Score) (root_player : PlayerId)
    (deadline : Option ℚ) (stats : SearchStats) (r : Rng) (c : Clock) :
    Score × SearchStats × Rng × Clock :=
  match ts with
  | [] => (value, stats, r, c)
  | t :: rest =>
    let m := minimax_rec cfg t.2 depth_next alpha beta root_player deadline stats r c
    let score := m.1
    if maximizing then
      let value1 := Score.maxS value score
      let alpha1 := Score.maxS alpha value1
      if m.2.1.timed_out || Score.le beta alpha1 then (value1, m.2.1, m.2.2.1, m.2.2.2)
      else minimaxLoop cfg maximizing rest depth_next value1 alpha1 beta root_player deadline
        m.2.1 m.2.2.1 m.2.2.2
    else
      let value1 := Score.minS value score
      let beta1 := Score.minS beta value1
      if m.2.1.timed_out || Score.le beta1 alpha then (value1, m.2.1, m.2.2.1, m.2.2.2)
      else minimaxLoop cfg maximizing rest depth_next value1 alpha beta1 root_player deadline
        m.2.1 m.2.2.1 m.2.2.2
termination_by (depth_next, 1, ts.length)

end

/-- The root loop of decide_action over the prioritized transitions. -/
def decideLoop (cfg : AiConfig) (ts : List (GameAction × GameState)) (depth : Nat)
    (maximizing : Bool) (player_id : PlayerId) (deadline : Option ℚ)
    (best_action : Option GameAction) (best_score best_cmp alpha beta : Score)
    (stats : SearchStats) (r : Rng) (c : Clock) :
    Option GameAction × Score × SearchStats × Rng × Clock :=
  match ts with
  | [] => (best_action, best_score, stats, r, c)
  | t :: rest =>
    let m := minimax_rec cfg t.2 depth alpha beta player_id deadline stats r c
    let score := m.1
    if m.2.1.timed_out then (best_action, best_score, m.2.1, m.2.2.1, m.2.2.2)
    else
      let alpha1 := if maximizing then Score.maxS alpha score else alpha
      let beta1 := if maximizing then beta else Score.minS beta score
      let csr : Score × Rng :=
        if 0 < cfg.randomness then
          let n := random_noise cfg m.2.2.1
          (Score.addQ score n.1, n.2)
        else (score, m.2.2.1)
      let best1 : Option GameAction × Score × Score :=
        if Score.lt best_cmp csr.1 then (some t.1, score, csr.1)
        else (best_action, best_score, best_cmp)
      if Score.le beta1 alpha1 then (best1.1, best1.2.1, m.2.1, csr.2, m.2.2.2)
      else decideLoop cfg rest depth maximizing player_id deadline best1.1 best1.2.1
        best1.2.2 alpha1 beta1 m.2.1 csr.2 m.2.2.2

/-- AiAgent::random_decision (note: it shuffles unconditionally, whatever the
configured randomness). -/
def random_decision (cfg : AiConfig) (r : Rng) (c : Clock) (state : GameState)
    (player_id : PlayerId) (start : ℚ) (deadline : Option ℚ) :
    AiDecision × Rng × Clock :=
  let g := generate_transitions cfg r c state state.current_player deadline
  if g.1.isEmpty then
    let e := wasmElapsed start g.2.2
    ({ action := none, evaluation := .val (evaluate cfg state player_id), depth_reached := 0,
       nodes := 0, timed_out := false, duration_ms := e.1, resolution := none,
       strategy := .random }, g.2.1, e.2)
  else
    let sh := g.2.1.shuffleList g.1
    let chosen := sh.1.getD 0 (GameAction.endTurn, state)
    let resolution := (simulate_resolution state chosen.1).toOption
    let e := wasmElapsed start g.2.2
    ({ action := some chosen.1, evaluation := .val (evaluate cfg chosen.2 player_id),
       depth_reached := 1, nodes := 1, timed_out := false, duration_ms := e.1,
       resolution, strategy := .random }, sh.2, e.2)

/-- AiAgent::decide_action. -/
def decide_action (agent : AiAgent) (c : Clock) (state : GameState) (player_id : PlayerId) :
    AiDecision × AiAgent × Clock :=
  let cfg := agent.config
  let stats := SearchStats.new
  let st := c.now
  let start := st.1
  let deadline : Option ℚ := if cfg.time_limit = 0 then none else some (start + cfg.time_limit)
  let strategy := cfg.strategy
  if strategy = .random then
    let d := random_decision cfg agent.rng st.2 state player_id start deadline
    (d.1, { agent with rng := d.2.1 }, d.2.2)
  else if state.is_finished then
    let e := wasmElapsed start st.2
    ({ action := none, evaluation := .val (evaluate cfg state player_id), depth_reached := 0,
       nodes := 0, timed_out := false, duration_ms := e.1, resolution := none, strategy },
      agent, e.2)
  else
    let depth := cfg.depth - 1
    let maximizing := state.current_player = player_id
    let g := generate_transitions cfg agent.rng st.2 state state.current_player deadline
    let transitions := prioritize_actions cfg state g.1 strategy player_id
    if transitions.isEmpty then
      let e := wasmElapsed start g.2.2
      ({ action := none, evaluation := .val (evaluate cfg state player_id),
         depth_reached := stats.depth_reached, nodes := stats.nodes,
         timed_out := stats.timed_out, duration_ms := e.1, resolution := none, strategy },
        { agent with rng := g.2.1 }, e.2)
    else
      let l := decideLoop cfg transitions depth maximizing player_id deadline none
        Score.ninf Score.ninf Score.ninf Score.pinf stats g.2.1 g.2.2
      let best_action := l.1
      let resolution :=
        match best_action with
        | some action => (simulate_resolution state action).toOption
        | none => none
      let best_score :=
        if best_action.isNone then Score.val (evaluate cfg state player_id) else l.2.1
      let e := wasmElapsed start l.2.2.2.2
      ({ action := best_action, evaluation := best_score,
         depth_reached := l.2.2.1.depth_reached, nodes := l.2.2.1.nodes,
         timed_out := l.2.2.1.timed_out, duration_ms := e.1, resolution, strategy },
        { agent with rng := l.2.2.2.1 }, e.2)

/-! Deadline-free, noise-free specializations of the search (used to show that with
`randomness = 0` and no deadline the oracles are never consumed). -/

def handLoopP (state : GameState) (actor : PlayerId) (mana : Nat) :
    List Card → List GameAction → List (GameAction × GameState) →
    List GameAction × List (GameAction × GameState)
  | [], seen, actions => (seen, actions)
  | card :: rest, seen, actions =>
    if mana < card.cost then handLoopP state actor mana rest seen actions
    else
      let cands := (candPlays state actor card).map (fun a => GameAction.playCard a)
      let sa := tryActions state cands seen actions
      handLoopP state actor mana rest sa.1 sa.2

def attackLoopP (state : GameState) (actor opponent : PlayerId)
    (defender_board : List CardId) :
    List Card → List GameAction → List (GameAction × GameState) →
    List GameAction × List (GameAction × GameState)
  | [], seen, actions => (seen, actions)
  | card :: rest, seen, actions =>
    if card.exhausted || card.attack ≤ 0 then
      attackLoopP state actor opponent defender_board rest seen actions
    else
      let cands := (candAttacks actor opponent defender_board card).map
        (fun a => GameAction.attack a)
      let sa := tryActions state cands seen actions
      attackLoopP state actor opponent defender_board rest sa.1 sa.2

def generate_transitionsP (state : GameState) (actor : PlayerId) :
    List (GameAction × GameState) :=
  if state.current_player ≠ actor then
    match simulate_state state .endTurn with
    | .ok new_state => [(GameAction.endTurn, new_state)]
    | .error _ => []
  else
    let sa :=
      match state.get_player actor with
      | none => (([] : List GameAction), ([] : List (GameAction × GameState)))
      | some player =>
        let h := handLoopP state actor player.mana player.hand [] []
        match state.opponent_of actor with
        | none => h
        | some opponent =>
          let defender_board : List CardId :=
            ((state.get_player opponent).map
              (fun (p : Player) => p.board.map (fun (cd : Card) => cd.id))).getD []
          attackLoopP state actor opponent defender_board player.board h.1 h.2
    if sa.1.contains GameAction.endTurn then sa.2
    else
      match simulate_state state .endTurn with
      | .ok new_state => sa.2 ++ [(GameAction.endTurn, new_state)]
      | .error _ => sa.2

mutual

def minimax_recP (cfg : AiConfig) (state : GameState) (depth_remaining : Nat)
    (alpha beta : Score) (root_player : PlayerId) (stats : SearchStats) :
    Score × SearchStats :=
  let stats1 := { stats with nodes := stats.nodes + 1 }
  let depth_explored := cfg.depth - depth_remaining
  let stats2 := if stats1.depth_reached < depth_explored
    then { stats1 with depth_reached := depth_explored } else stats1
  if depth_remaining = 0 ∨ state.is_finished then
    (.val (evaluate cfg state root_player), stats2)
  else
    let actor := state.current_player
    let maximizing_player := actor = root_player
    let transitions := prioritize_actions cfg state (generate_transitionsP state actor)
      cfg.strategy root_player
    if transitions.isEmpty then (.val (evaluate cfg state root_player), stats2)
    else if maximizing_player then
      minimaxLoopP cfg true transitions (depth_remaining - 1) Score.ninf alpha beta
        root_player stats2
    else
      minimaxLoopP cfg false transitions (depth_remaining - 1) Score.pinf alpha beta
        root_player stats2
termination_by (depth_remaining, 0, 0)

def minimaxLoopP (cfg : AiConfig) (maximizing : Bool) (ts : List (GameAction × GameState))
    (depth_next : Nat) (value alpha beta : Score) (root_player : PlayerId)
    (stats : SearchStats) : Score × SearchStats :=
  match ts with
  | [] => (value, stats)
  | t :: rest =>
    let m := minimax_recP cfg t.2 depth_next alpha beta root_player stats
    let score := m.1
    if maximizing then
      let value1 := Score.maxS value score
      let alpha1 := Score.maxS alpha value1
      if m.2.timed_out || Score.le beta alpha1 then (value1, m.2)
      else minimaxLoopP cfg maximizing rest depth_next value1 alpha1 beta root_player m.2
    else
      let value1 := Score.minS value score
      let beta1 := Score.minS beta value1
      if m.2.timed_out || Score.le beta1 alpha then (value1, m.2)
      else minimaxLoopP cfg maximizing rest depth_next value1 alpha beta1 root_player m.2
termination_by (depth_next, 1, ts.length)

end

def decideLoopP (cfg : AiConfig) (ts : List (GameAction × GameState)) (depth : Nat)
    (maximizing : Bool) (player_id : PlayerId) (best_action : Option GameAction)
    (best_score best_cmp alpha beta : Score) (stats : SearchStats) :
    Option GameAction × Score × SearchStats :=
  match ts with
  | [] => (best_action, best_score, stats)
  | t :: rest =>
    let m := minimax_recP cfg t.2 depth alpha beta player_id stats
    let score := m.1
    if m.2.timed_out then (best_action, best_score, m.2)
    else
      let alpha1 := if maximizing then Score.maxS alpha score else alpha
      let beta1 := if maximizing then beta else Score.minS beta score
      let best1 : Option GameAction × Score × Score :=
        if Score.lt best_cmp score then (some t.1, score, score)
        else (best_action, best_score, best_cmp)
      if Score.le beta1 alpha1 then (best1.1, best1.2.1, m.2)
      else decideLoopP cfg rest depth maximizing player_id best1.1 best1.2.1 best1.2.2
        alpha1 beta1 m.2

def C9cfgRandom : AiConfig :=
  { depth := 1, randomness := 0, time_limit := 0, strategy := .random }

def C9cfgControl : AiConfig :=
  { depth := 1, randomness := 0, time_limit := 0, strategy := .control }

/-- PRNG oracle as it stands at the first call of a freshly seeded agent: the next
shuffle leaves the transition list in place. -/
def C9rngA : Rng := { perms := fun _ => [0, 1, 2], floats := fun _ => 0, k := 0 }

/-- PRNG oracle as it stands at a later call of the same agent (the generator has
advanced): the next shuffle rotates the transition list. -/
def C9rngB : Rng := { perms := fun _ => [1, 2, 0], floats := fun _ => 0, k := 0 }

def C9clock : Clock := { times := fun _ => 0, k := 0 }

/-! Claim theorems. -/

/-- C1: the claim states that an operation returning a typed error leaves the state
unchanged in the caller's view.  The code violates this: play_card removes the card from
hand before the requires-target check, so the InvalidTarget error path loses the card.
This theorem evaluates the code at the failing input (player 0 plays the targeting spell
Fireball with no target supplied). -/
theorem play_card_error_leaves_card_removed :
    (RuleEngine.play_card C1State C1Action).1 = .error .invalidTarget ∧
    (C1State.get_player 0).map (fun p => p.hand.length) = some 1 ∧
    ((RuleEngine.play_card C1State C1Action).2.get_player 0).map (fun p => p.hand.length)
      = some 0 :=
  ⟨rfl, rfl, rfl⟩

/-- C2: the claim asserts that under its hypotheses end_turn grows player 1's hand by
exactly one card.  On C2State, which satisfies every hypothesis of the claim (player 0
current, OnTurnStart Heal(2)-SourcePlayer unit on player 1's board, both decks non-empty),
the code readies player 1 twice (once in the GameState::end_turn mutator, once in
process_turn_start) and hence draws twice: the hand grows from 0 to 2 cards, while turn
passing, the CardHealed event and the un-exhausting all behave as claimed. -/
theorem end_turn_double_draws_next_player :
    (RuleEngine.end_turn C2State).1 = .ok [.turnEnded 0, .cardHealed 1 none 2] ∧
    (RuleEngine.end_turn C2State).2.current_player = 1 ∧
    (C2State.get_player 1).map (fun p => p.hand.length) = some 0 ∧
    ((RuleEngine.end_turn C2State).2.get_player 1).map (fun p => p.hand.length) = some 2 ∧
    ((RuleEngine.end_turn C2State).2.get_player 1).map
      (fun p => p.board.all (fun c => !c.exhausted)) = some true :=
  ⟨rfl, rfl, rfl, rfl, rfl⟩

theorem find?_updateFirst {α} (l : List α) (pr : α → Bool) (f : α → α)
    (hpr : ∀ a, pr (f a) = pr a) :
    (updateFirst pr f l).find? pr = (l.find? pr).map f := by
  induction l with
  | nil => rfl
  | cons x xs ih =>
    by_cases h : pr x
    · simp [updateFirst, h, hpr x]
    · simp [updateFirst, h, ih]

theorem get_player_update_player (s : GameState) (pid : PlayerId) (f : Player → Player)
    (hf : ∀ q, (f q).id = q.id) :
    (s.update_player pid f).get_player pid = (s.get_player pid).map f := by
  unfold GameState.update_player GameState.get_player
  exact find?_updateFirst s.players _ f (fun a => by simp [hf a])

theorem find?_updateFirst_map_id (l : List Player) (pr : Player → Bool) (q : PlayerId)
    (f : Player → Player) (hf : ∀ a, (f a).id = a.id) :
    ((updateFirst pr f l).find? (fun p => p.id != q)).map (·.id)
      = (l.find? (fun p => p.id != q)).map (·.id) := by
  induction l with
  | nil => rfl
  | cons x xs ih =>
    by_cases h : pr x
    · by_cases hq : (x.id != q) = true
      · simp [updateFirst, h, hq, hf x]
      · simp only [Bool.not_eq_true] at hq
        simp [updateFirst, h, hq, hf x]
    · by_cases hq : (x.id != q) = true
      · simp [updateFirst, h, hq]
      · simp only [Bool.not_eq_true] at hq
        simp [updateFirst, h, hq, ih]

theorem opponent_of_update_player (s : GameState) (pid q : PlayerId) (f : Player → Player)
    (hf : ∀ a, (f a).id = a.id) :
    (s.update_player pid f).opponent_of q = s.opponent_of q := by
  unfold GameState.update_player GameState.opponent_of
  exact find?_updateFirst_map_id s.players _ q f hf

theorem get_player_declare_victory (s : GameState) (w : PlayerId) (r : VictoryReason)
    (pid : PlayerId) :
    (s.declare_victory w r).2.get_player pid = s.get_player pid := by
  unfold GameState.declare_victory GameState.get_player GameState.record_event
  split <;> rfl

theorem get_player_maybe_declare (s1 : GameState) (tgt pid : PlayerId) (cond : Prop)
    [Decidable cond] :
    (if cond then
        (match s1.players.find? (fun p => p.id != tgt) with
          | some winner => (s1.declare_victory winner.id (.healthDepleted tgt)).2
          | none => s1)
      else s1).get_player pid = s1.get_player pid := by
  split
  · cases s1.players.find? (fun p => p.id != tgt) with
    | none => rfl
    | some winner => exact get_player_declare_victory s1 winner.id _ pid
  · rfl

theorem outcome_maybe_declare (s1 : GameState) (tgt w : PlayerId) (cond : Prop)
    [Decidable cond]
    (hw : (s1.players.find? (fun p => p.id != tgt)).map (·.id) = some w) :
    (if cond then
        (match s1.players.find? (fun p => p.id != tgt) with
          | some winner => (s1.declare_victory winner.id (.healthDepleted tgt)).2
          | none => s1)
      else s1).outcome
      = if cond ∧ s1.outcome = none then some ⟨w, .healthDepleted tgt⟩ else s1.outcome := by
  by_cases hc : cond
  · rw [if_pos hc]
    cases hfind : s1.players.find? (fun p => p.id != tgt) with
    | none => rw [hfind] at hw; simp at hw
    | some winner =>
      rw [hfind] at hw
      simp only [Option.map_some', Option.some_inj] at hw
      simp only [hfind]
      unfold GameState.declare_victory
      cases ho : s1.outcome with
      | some x => simp [ho, hc]
      | none => simp [ho, hc, GameState.record_event, hw]
  · rw [if_neg hc, if_neg (fun hcon => hc hcon.1)]

/-- C5: the complete functional behaviour of GameState::draw_card.  An empty deck declares
a DeckOut victory for the opponent (declare_victory keeps a pre-existing outcome) and
returns no event; a non-empty deck loses its last element, and the card is either burned
(hand already at max_hand_size, hand unchanged) or drawn into the hand. -/
theorem draw_card_spec (s : GameState) (p : PlayerId) (pl : Player) (opp : PlayerId)
    (hp : s.get_player p = some pl) (ho : s.opponent_of p = some opp) :
    (pl.deck = [] →
      (s.draw_card p).1 = none ∧
      (s.draw_card p).2.outcome = some (s.outcome.getD ⟨opp, .deckOut p⟩)) ∧
    (∀ c, pl.deck.getLast? = some c →
      (pl.hand.length ≥ s.max_hand_size →
        (s.draw_card p).1 = some (.cardBurned p c) ∧
        (s.draw_card p).2.get_player p = some { pl with deck := pl.deck.dropLast }) ∧
      (pl.hand.length < s.max_hand_size →
        (s.draw_card p).1 = some (.cardDrawn p c.id) ∧
        (s.draw_card p).2.get_player p
          = some { pl with deck := pl.deck.dropLast, hand := pl.hand ++ [c] })) := by
  constructor
  · intro hd
    unfold GameState.draw_card
    rw [hp, ho]
    simp only [hd, List.isEmpty_nil, if_true]
    refine ⟨by trivial, ?_⟩
    unfold GameState.declare_victory
    cases houtcome : s.outcome with
    | some x => simp [houtcome]
    | none => simp [houtcome, GameState.record_event]
  · intro c hc
    have hdne : pl.deck.isEmpty = false := by
      cases hdeck : pl.deck with
      | nil => rw [hdeck] at hc; simp at hc
      | cons a as => simp
    unfold GameState.draw_card
    rw [hp]
    simp only [hdne, Bool.false_eq_true, if_false, hc]
    constructor
    · intro hge
      rw [if_pos hge]
      refine ⟨by trivial, ?_⟩
      rw [get_player_update_player s p (fun q => { q with deck := q.deck.dropLast })
        (fun q => rfl), hp]
      rfl
    · intro hlt
      rw [if_neg (Nat.not_le.mpr hlt)]
      refine ⟨by trivial, ?_⟩
      rw [get_player_update_player s p
        (fun q => { q with deck := q.deck.dropLast, hand := q.hand ++ [c] })
        (fun q => rfl), hp]
      rfl

theorem draw_card_spec_witness :
    DrawState.get_player 1 = some (mkPlayer 1 30 4 [] [] []) ∧
    DrawState.opponent_of 1 = some 0 ∧
    ((DrawState.draw_card 1).1 = none ∧
      (DrawState.draw_card 1).2.outcome = some ⟨0, .deckOut 1⟩) ∧
    ((DrawState.draw_card 0).1 = some (.cardDrawn 0 61) ∧
      ((DrawState.draw_card 0).2.get_player 0).map (fun q => q.hand.map (fun c => c.id))
        = some [61]) := by
  refine ⟨rfl, rfl, ?_, ?_⟩
  · exact (draw_card_spec DrawState 1 (mkPlayer 1 30 4 [] [] []) 0 rfl rfl).1 rfl
  · have h := ((draw_card_spec DrawState 0
      (mkPlayer 0 30 5 [] [] [filler 60, filler 61]) 1 rfl rfl).2 (filler 61) rfl).2
      (by decide)
    exact ⟨h.1, by rw [h.2]; rfl⟩

/-- C6: the complete functional behaviour of GameState::damage_player: no-op (returning
no event) on non-positive amounts; otherwise armor absorbs first (saturating at zero),
the remainder hits health, a DamageResolved event with no target card is returned, and a
HealthDepleted victory for the opponent is declared exactly when health drops to zero or
below while no outcome is set yet. -/
theorem damage_player_spec (s : GameState) (src : PlayerId) (sc : Option CardId)
    (tgt : PlayerId) (amt : Int) (pl : Player) (hp : s.get_player tgt = some pl) :
    (amt ≤ 0 → s.damage_player src sc tgt amt = (none, s)) ∧
    (0 < amt →
      (s.damage_player src sc tgt amt).1 = some (.damageResolved src sc tgt none amt) ∧
      (s.damage_player src sc tgt amt).2.get_player tgt
        = some { pl with armor := armorAfter pl.armor amt,
                         health := healthAfter pl.health pl.armor amt } ∧
      (∀ w, s.opponent_of tgt = some w →
        (s.damage_player src sc tgt amt).2.outcome
          = if healthAfter pl.health pl.armor amt ≤ 0 ∧ s.outcome = none
            then some ⟨w, .healthDepleted tgt⟩ else s.outcome)) := by
  constructor
  · intro hle
    unfold GameState.damage_player
    rw [hp]
    simp [hle]
  · intro hpos
    have habs1 : (if pl.armor > 0 then min amt (pl.armor : Int) else 0)
        = min amt (pl.armor : Int) := by
      by_cases h : pl.armor > 0 <;> simp [h] <;> omega
    have harmor : pl.armor - (min amt (pl.armor : Int)).toNat = armorAfter pl.armor amt := by
      unfold armorAfter; omega
    have hhealth : (if amt - min amt (pl.armor : Int) > 0
          then pl.health - (amt - min amt (pl.armor : Int)) else pl.health)
        = healthAfter pl.health pl.armor amt := by
      unfold healthAfter
      by_cases h : amt - min amt (pl.armor : Int) > 0 <;> simp [h] <;> omega
    simp only [GameState.damage_player, hp]
    rw [if_neg (by omega : ¬ amt ≤ 0)]
    simp only [habs1, hhealth]
    have harmor2 : pl.armor - (min amt (pl.armor : Int)).toNat = armorAfter pl.armor amt := by
      unfold armorAfter; omega
    refine ⟨by trivial, ?_, ?_⟩
    · rw [get_player_maybe_declare]
      rw [get_player_update_player s tgt (fun q => { q with armor := q.armor - (min amt (pl.armor : Int)).toNat, health := healthAfter pl.health pl.armor amt }) (fun q => rfl), hp]
      simp only [Option.map_some', Option.some_inj, harmor2]
    · intro w hw
      have hw1 := opponent_of_update_player s tgt tgt
        (fun q => { q with armor := q.armor - (min amt (pl.armor : Int)).toNat, health := healthAfter pl.health pl.armor amt }) (fun a => rfl)
      rw [hw] at hw1
      unfold GameState.opponent_of at hw1
      rw [outcome_maybe_declare _ tgt w _ hw1]
      rfl

theorem damage_player_spec_witness :
    DmgState.get_player 0 = some { mkPlayer 0 5 5 [] [] [] with armor := 2 } ∧
    DmgState.opponent_of 0 = some 1 ∧
    (DmgState.damage_player 1 none 0 (-3) = (none, DmgState)) ∧
    ((DmgState.damage_player 1 none 0 9).1 = some (.damageResolved 1 none 0 none 9) ∧
      (DmgState.damage_player 1 none 0 9).2.get_player 0
        = some { mkPlayer 0 (-2) 5 [] [] [] with armor := 0 } ∧
      (DmgState.damage_player 1 none 0 9).2.outcome = some ⟨1, .healthDepleted 0⟩) := by
  have h := damage_player_spec DmgState 1 none 0 9
    { mkPlayer 0 5 5 [] [] [] with armor := 2 } rfl
  have h3 := damage_player_spec DmgState 1 none 0 (-3)
    { mkPlayer 0 5 5 [] [] [] with armor := 2 } rfl
  refine ⟨rfl, rfl, h3.1 (by decide), ?_⟩
  have h2 := h.2 (by decide)
  refine ⟨h2.1, ?_, ?_⟩
  · rw [h2.2.1]
    rfl
  · rw [h2.2.2 1 rfl]
    decide

/-- C7: once the outcome is set it is never cleared — declare_victory on a decided state
changes nothing (in particular it records no second GameWon event), and each public rule
operation fails with GameFinished leaving the state unchanged. -/
theorem outcome_monotone_game_finished (s : GameState) (v : VictoryState)
    (h : s.outcome = some v) (w : PlayerId) (r : VictoryReason) (a : PlayCardAction)
    (aa : AttackAction) (ma : MulliganAction) (pid : PlayerId) :
    s.declare_victory w r = (⟨w, r⟩, s) ∧
    RuleEngine.play_card s a = (.error .gameFinished, s) ∧
    RuleEngine.attack s aa = (.error .gameFinished, s) ∧
    RuleEngine.mulligan s ma = (.error .gameFinished, s) ∧
    RuleEngine.start_turn s pid = (.error .gameFinished, s) ∧
    RuleEngine.end_turn s = (.error .gameFinished, s) ∧
    RuleEngine.advance_phase s = (.error .gameFinished, s) := by
  have hf : s.is_finished = true := by simp [GameState.is_finished, h]
  refine ⟨?_, ?_, ?_, ?_, ?_, ?_, ?_⟩ <;>
    simp [GameState.declare_victory, RuleEngine.play_card, RuleEngine.play_card_gates,
      RuleEngine.attack, RuleEngine.attack_gates, RuleEngine.mulligan,
      RuleEngine.start_turn, RuleEngine.end_turn, RuleEngine.advance_phase, hf, h]

theorem outcome_monotone_game_finished_witness :
    FinishedState.outcome = some ⟨0, .special "done"⟩ ∧
    (FinishedState.declare_victory 1 (.deckOut 0) = (⟨1, .deckOut 0⟩, FinishedState) ∧
      RuleEngine.play_card FinishedState ⟨0, 1, none, none⟩
        = (.error .gameFinished, FinishedState) ∧
      RuleEngine.attack FinishedState ⟨0, 2, 1, none⟩
        = (.error .gameFinished, FinishedState) ∧
      RuleEngine.mulligan FinishedState ⟨0, []⟩ = (.error .gameFinished, FinishedState) ∧
      RuleEngine.start_turn FinishedState 1 = (.error .gameFinished, FinishedState) ∧
      RuleEngine.end_turn FinishedState = (.error .gameFinished, FinishedState) ∧
      RuleEngine.advance_phase FinishedState = (.error .gameFinished, FinishedState)) :=
  ⟨rfl, by
    have h := outcome_monotone_game_finished FinishedState ⟨0, .special "done"⟩ rfl 1
      (.deckOut 0) ⟨0, 1, none, none⟩ ⟨0, 2, 1, none⟩ ⟨0, []⟩ 1
    exact ⟨h.1, h.2.1, h.2.2.1, h.2.2.2.1, h.2.2.2.2.1, h.2.2.2.2.2.1, h.2.2.2.2.2.2⟩⟩

theorem anyKindTriggers_eq_any (ks : List EffectKind) (ctx : EffectContext) (s : GameState) :
    anyKindTriggers ks ctx s = ks.any (fun k => k.can_trigger ctx s) := by
  induction ks with
  | nil => rfl
  | cons k ks ih => simp [anyKindTriggers, ih]

/-- C10: the Composite gate passes when any one sub-effect can trigger, and application
then runs every sub-effect unconditionally in order; concretely, resolving a Composite
containing a DrawCard on an empty deck invokes draw_card and declares a DeckOut victory
for the opponent of the resolved target, whereas a stand-alone DrawCard effect on the same
state is discarded by can_trigger, leaving the state unchanged. -/
theorem composite_bypasses_subeffect_gates :
    (∀ (effects : List EffectKind) (ctx : EffectContext) (s : GameState),
      EffectKind.can_trigger (.composite effects) ctx s
        = effects.any (fun k => k.can_trigger ctx s)) ∧
    (∀ (k : EffectKind) (ks : List EffectKind) (ctx : EffectContext) (s : GameState),
      EffectKind.apply (.composite (k :: ks)) ctx s
        = ((k.apply ctx s).1 ++ (EffectKind.apply (.composite ks) ctx (k.apply ctx s).2).1,
           (EffectKind.apply (.composite ks) ctx (k.apply ctx s).2).2)) ∧
    (resolve_all (EffectStack.empty.push compositeDrawEffect C10Ctx) C10State).2.1.outcome
      = some ⟨1, .deckOut 0⟩ ∧
    (resolve_all (EffectStack.empty.push standaloneDrawEffect C10Ctx) C10State).2.1
      = C10State :=
  ⟨fun effects ctx s => by simp [EffectKind.can_trigger, anyKindTriggers_eq_any],
   fun k ks ctx s => by simp [EffectKind.apply, applyKindList],
   rfl, rfl⟩

theorem stackLT_iff (a b : StackItem) :
    stackLT a b = true
      ↔ (a.priority < b.priority ∨ (a.priority = b.priority ∧ b.order < a.order)) := by
  simp [stackLT, Bool.or_eq_true, Bool.and_eq_true, decide_eq_true_eq, beq_iff_eq]

theorem stackLT_total (a b : StackItem) (h : a.order ≠ b.order) :
    stackLT a b = true ∨ stackLT b a = true := by
  rw [stackLT_iff, stackLT_iff]
  omega

theorem stackLT_trans (a b c : StackItem) (hab : stackLT a b = true)
    (hbc : stackLT b c = true) : stackLT a c = true := by
  rw [stackLT_iff] at *
  omega

theorem popMax_eq_none (l : List StackItem) : popMax l = none ↔ l = [] := by
  cases l with
  | nil => simp [popMax]
  | cons x xs =>
    simp only [popMax]
    cases popMax xs with
    | none => simp
    | some pr =>
      obtain ⟨m, rest⟩ := pr
      by_cases h : stackLT x m = true <;> simp [h]

theorem popMax_perm (l : List StackItem) (m : StackItem) (rest : List StackItem)
    (h : popMax l = some (m, rest)) : l.Perm (m :: rest) := by
  induction l generalizing m rest with
  | nil => simp [popMax] at h
  | cons x xs ih =>
    cases hxs : popMax xs with
    | none =>
      have hnil : xs = [] := (popMax_eq_none xs).mp hxs
      have heq : popMax (x :: xs) = some (x, []) := by simp [popMax, hxs]
      rw [heq] at h
      injection h with hp
      injection hp with h1 h2
      subst hnil h1 h2
      exact List.Perm.refl _
    | some pr =>
      obtain ⟨m', rest'⟩ := pr
      have hperm := ih m' rest' hxs
      by_cases hlt : stackLT x m' = true
      · have heq : popMax (x :: xs) = some (m', x :: rest') := by simp [popMax, hxs, hlt]
        rw [heq] at h
        injection h with hp
        injection hp with h1 h2
        subst h1 h2
        exact (hperm.cons x).trans (List.Perm.swap m' x rest')
      · have heq : popMax (x :: xs) = some (x, xs) := by simp [popMax, hxs, hlt]
        rw [heq] at h
        injection h with hp
        injection hp with h1 h2
        subst h1 h2
        exact List.Perm.refl _

theorem popMax_max (l : List StackItem) (hpw : l.Pairwise (fun a b => a.order ≠ b.order))
    (m : StackItem) (rest : List StackItem) (h : popMax l = some (m, rest)) :
    ∀ i ∈ rest, stackLT i m = true := by
  induction l generalizing m rest with
  | nil => simp [popMax] at h
  | cons x xs ih =>
    obtain ⟨hx, hpw'⟩ := List.pairwise_cons.mp hpw
    cases hxs : popMax xs with
    | none =>
      have heq : popMax (x :: xs) = some (x, []) := by simp [popMax, hxs]
      rw [heq] at h
      injection h with hp
      injection hp with h1 h2
      subst h1 h2
      intro i hi
      simp at hi
    | some pr =>
      obtain ⟨m', rest'⟩ := pr
      have hperm := popMax_perm xs m' rest' hxs
      have hmax' := ih hpw' m' rest' hxs
      have hm'mem : m' ∈ xs := hperm.mem_iff.mpr (List.mem_cons_self m' rest')
      by_cases hlt : stackLT x m' = true
      · have heq : popMax (x :: xs) = some (m', x :: rest') := by simp [popMax, hxs, hlt]
        rw [heq] at h
        injection h with hp
        injection hp with h1 h2
        subst h1 h2
        intro i hi
        rcases List.mem_cons.mp hi with hix | hirest
        · rw [hix]; exact hlt
        · exact hmax' i hirest
      · have heq : popMax (x :: xs) = some (x, xs) := by simp [popMax, hxs, hlt]
        rw [heq] at h
        injection h with hp
        injection hp with h1 h2
        subst h1 h2
        intro i hi
        have hm'x : stackLT m' x = true := by
          rcases stackLT_total x m' (hx m' hm'mem) with hc | hc
          · exact absurd hc hlt
          · exact hc
        rcases List.mem_cons.mp (hperm.mem_iff.mp hi) with him | hirest
        · rw [him]; exact hm'x
        · exact stackLT_trans i m' x (hmax' i hirest) hm'x

/-- C3: a pop of the effect stack removes exactly one pending item, and that item beats
every remaining item under the Rust StackItem ordering — strictly higher priority, or
equal priority and a strictly smaller insertion counter (earlier push); and every push
stamps the monotone counter, so an effect pushed during resolution carries a strictly
newer order counter than everything already pending.  resolve_all is defined as the loop
that repeatedly takes popMax, so its pops follow exactly this order. -/
theorem effect_stack_pop_order :
    (∀ (items : List StackItem), items.Pairwise (fun a b => a.order ≠ b.order) →
      ∀ m rest, popMax items = some (m, rest) →
        items.Perm (m :: rest) ∧ ∀ i ∈ rest, stackLT i m = true) ∧
    (∀ (st : EffectStack) (e : CardEffect) (ctx : EffectContext),
      (∀ i ∈ st.items, i.order ≤ st.order) →
        (st.push e ctx).items = st.items ++ [⟨e.id, e.priority, st.order + 1, e, ctx⟩] ∧
          ∀ i ∈ st.items, i.order < st.order + 1) :=
  ⟨fun items hpw m rest h => ⟨popMax_perm items m rest h, popMax_max items hpw m rest h⟩,
   fun st e ctx hb => ⟨rfl, fun i hi => Nat.lt_succ_of_le (hb i hi)⟩⟩

theorem effect_stack_pop_order_witness :
    ([itemA, itemB].Pairwise (fun a b => a.order ≠ b.order) ∧
      ([itemA, itemB].Perm (itemA :: [itemB]) ∧ ∀ i ∈ [itemB], stackLT i itemA = true)) ∧
    ((∀ i ∈ EffectStack.empty.items, i.order ≤ EffectStack.empty.order) ∧
      ((EffectStack.empty.push fireballEffect C10Ctx).items
          = EffectStack.empty.items
            ++ [⟨fireballEffect.id, fireballEffect.priority, 1, fireballEffect, C10Ctx⟩] ∧
        ∀ i ∈ EffectStack.empty.items, i.order < 1)) := by
  have hpw : [itemA, itemB].Pairwise (fun a b => a.order ≠ b.order) := by
    simp [List.pairwise_cons, itemA, itemB]
  refine ⟨⟨hpw, effect_stack_pop_order.1 [itemA, itemB] hpw itemA [itemB] rfl⟩, ?_⟩
  have hb : ∀ i ∈ EffectStack.empty.items, i.order ≤ EffectStack.empty.order := by
    intro i hi
    simp [EffectStack.empty] at hi
  exact ⟨hb, effect_stack_pop_order.2 EffectStack.empty fireballEffect C10Ctx hb⟩

theorem getD_eq_getElem_of_lt {α} (l : List α) (i : Nat) (d : α) (h : i < l.length) :
    l.getD i d = l[i] := by
  simp [List.getD_eq_getElem?_getD, List.getElem?_eq_getElem h]

theorem sumMap_updateFirst {α} (l : List α) (pr : α → Bool) (f : α → α) (g : α → Nat)
    (hg : ∀ a, g (f a) = g a) :
    ((updateFirst pr f l).map g).sum = (l.map g).sum := by
  induction l with
  | nil => rfl
  | cons a as ih =>
    by_cases h : pr a
    · simp [updateFirst, h, hg a]
    · simp [updateFirst, h, ih]

theorem sumMap_set {α} (g : α → Nat) (l : List α) (i : Nat) (x : α) (h : i < l.length) :
    ((l.set i x).map g).sum + g l[i] = g x + (l.map g).sum := by
  induction l generalizing i with
  | nil => simp at h
  | cons a as ih =>
    cases i with
    | zero => simp [List.set]; omega
    | succ i =>
      have hlen : i < as.length := by simpa using h
      have := ih i hlen
      simp only [List.set, List.map_cons, List.sum_cons, List.getElem_cons_succ]
      omega

theorem sumMap_eraseIdx {α} (g : α → Nat) (l : List α) (i : Nat) (h : i < l.length) :
    ((l.eraseIdx i).map g).sum + g l[i] = (l.map g).sum := by
  induction l generalizing i with
  | nil => simp at h
  | cons a as ih =>
    cases i with
    | zero => simp [List.eraseIdx]; omega
    | succ i =>
      have hlen : i < as.length := by simpa using h
      have := ih i hlen
      simp only [List.eraseIdx, List.map_cons, List.sum_cons, List.getElem_cons_succ]
      omega

theorem destroyedBudget_nil : destroyedBudget [] = 0 := rfl

theorem destroyedBudget_cons (e : GameEvent) (evs : List GameEvent) :
    destroyedBudget (e :: evs) = dBudget e + destroyedBudget evs := by
  simp [destroyedBudget]

theorem destroyedBudget_append (a b : List GameEvent) :
    destroyedBudget (a ++ b) = destroyedBudget a + destroyedBudget b := by
  simp [destroyedBudget]

theorem boardBudget_update_player (s : GameState) (pid : PlayerId) (f : Player → Player)
    (hf : ∀ p, playerBudget (f p) = playerBudget p) :
    boardBudget (s.update_player pid f) = boardBudget s := by
  have h := sumMap_updateFirst s.players (fun p => p.id == pid) f playerBudget hf
  exact h

theorem boardBudget_record_event (s : GameState) (e : GameEvent) :
    boardBudget (s.record_event e) = boardBudget s := rfl

theorem boardBudget_declare_victory (s : GameState) (w : PlayerId) (r : VictoryReason) :
    boardBudget (s.declare_victory w r).2 = boardBudget s := by
  unfold GameState.declare_victory
  split <;> rfl

theorem damage_player_budget (s : GameState) (a : PlayerId) (b : Option CardId)
    (c : PlayerId) (d : Int) :
    boardBudget (s.damage_player a b c d).2 = boardBudget s ∧
    ∀ ev, (s.damage_player a b c d).1 = some ev → dBudget ev = 0 := by
  constructor
  · simp only [GameState.damage_player]
    repeat' split
    all_goals try rfl
    all_goals try rw [boardBudget_declare_victory]
    all_goals refine boardBudget_update_player s c _ ?_
    all_goals intro p
    all_goals rfl
  · simp only [GameState.damage_player]
    repeat' split
    all_goals intro ev hev
    all_goals first
      | exact Option.noConfusion hev
      | (injection hev with hh; rw [← hh]; rfl)

theorem heal_player_budget (s : GameState) (p : PlayerId) (amt : Int) :
    boardBudget (s.heal_player p amt).2 = boardBudget s ∧
    ∀ ev, (s.heal_player p amt).1 = some ev → dBudget ev = 0 := by
  constructor
  · simp only [GameState.heal_player]
    repeat' split
    all_goals try rfl
    all_goals refine boardBudget_update_player s p _ ?_
    all_goals intro q
    all_goals rfl
  · simp only [GameState.heal_player]
    repeat' split
    all_goals intro ev hev
    all_goals first
      | exact Option.noConfusion hev
      | (injection hev with hh; rw [← hh]; rfl)

theorem heal_card_budget (s : GameState) (p : PlayerId) (cid : CardId) (amt : Int) :
    boardBudget (s.heal_card p cid amt).2 = boardBudget s ∧
    ∀ ev, (s.heal_card p cid amt).1 = some ev → dBudget ev = 0 := by
  constructor
  · simp only [GameState.heal_card]
    repeat' split
    all_goals try rfl
    all_goals refine boardBudget_update_player s p _ ?_
    all_goals intro q
    all_goals show playerBudget _ = playerBudget q
    all_goals dsimp only [playerBudget]
    all_goals refine sumMap_updateFirst q.board _ _ _ ?_
    all_goals intro cdx
    all_goals rfl
  · simp only [GameState.heal_card]
    repeat' split
    all_goals intro ev hev
    all_goals first
      | exact Option.noConfusion hev
      | (injection hev with hh; rw [← hh]; rfl)

theorem draw_card_budget (s : GameState) (p : PlayerId) :
    boardBudget (s.draw_card p).2 = boardBudget s ∧
    ∀ ev, (s.draw_card p).1 = some ev → dBudget ev = 0 := by
  constructor
  · simp only [GameState.draw_card]
    repeat' split
    all_goals try rfl
    all_goals try rw [boardBudget_declare_victory]
    all_goals try rfl
    all_goals refine boardBudget_update_player s p _ ?_
    all_goals intro q
    all_goals rfl
  · simp only [GameState.draw_card]
    repeat' split
    all_goals intro ev hev
    all_goals first
      | exact Option.noConfusion hev
      | (injection hev with hh; rw [← hh]; rfl)

theorem drawLoop_budget (n : Nat) (p : PlayerId) (s : GameState) :
    boardBudget (drawLoop n p s).2 = boardBudget s ∧
    destroyedBudget (drawLoop n p s).1 = 0 := by
  induction n generalizing s with
  | zero => exact ⟨rfl, rfl⟩
  | succ n ih =>
    obtain ⟨hb, hev⟩ := draw_card_budget s p
    simp only [drawLoop]
    split
    next e s1 heq =>
      have hb1 : boardBudget s1 = boardBudget s := by rw [heq] at hb; exact hb
      have he1 : dBudget e = 0 := hev e (by rw [heq])
      obtain ⟨ih1, ih2⟩ := ih s1
      refine ⟨by rw [ih1, hb1], ?_⟩
      rw [destroyedBudget_cons, he1, ih2]
    next s1 heq =>
      have hb1 : boardBudget s1 = boardBudget s := by rw [heq] at hb; exact hb
      obtain ⟨ih1, ih2⟩ := ih s1
      exact ⟨by rw [ih1, hb1], ih2⟩

theorem damage_card_destroyed_step (players : List Player) (sp : PlayerId)
    (sc : Option CardId) (tp : PlayerId) (tc : CardId) (amt : Int) (pi pos : Nat)
    (hpi : pi < players.length) (hpos : pos < (players.getD pi default).board.length) :
    ((players.set pi
        { players.getD pi default with board :=
            (((players.getD pi default).board.set pos
              { (players.getD pi default).board.getD pos default with
                health := ((players.getD pi default).board.getD pos default).health - amt
              }).eraseIdx pos) }).map playerBudget).sum
      + destroyedBudget [.damageResolved sp sc tp (some tc) amt,
          .cardDestroyed tp
            { (players.getD pi default).board.getD pos default with
              health := ((players.getD pi default).board.getD pos default).health - amt }]
      ≤ (players.map playerBudget).sum := by
  set P := players.getD pi default with hP
  set C := P.board.getD pos default with hC
  set C' : Card := { C with health := C.health - amt } with hC'
  set P' : Player := { P with board := (P.board.set pos C').eraseIdx pos } with hP'
  simp only [destroyedBudget_cons, destroyedBudget_nil, dBudget]
  have h1 := sumMap_set playerBudget players pi P' hpi
  have hgp : players[pi] = P := by rw [hP]; exact (getD_eq_getElem_of_lt players pi default hpi).symm
  rw [hgp] at h1
  have h2 := sumMap_eraseIdx effLen (P.board.set pos C') pos (by simpa using hpos)
  rw [List.getElem_set_self] at h2
  have h3 := sumMap_set effLen P.board pos C' hpos
  have hgb : P.board[pos] = C := by rw [hC]; exact (getD_eq_getElem_of_lt P.board pos default hpos).symm
  rw [hgb] at h3
  have g1 : playerBudget P = (P.board.map effLen).sum := rfl
  have g2 : playerBudget P' = (((P.board.set pos C').eraseIdx pos).map effLen).sum := rfl
  have g3 : effLen C' = C.effects.length := rfl
  have g4 : effLen C = C.effects.length := rfl
  have g5 : C'.effects.length = C.effects.length := rfl
  omega

theorem damage_card_live_step (players : List Player) (sp : PlayerId)
    (sc : Option CardId) (tp : PlayerId) (tc : CardId) (amt : Int) (pi pos : Nat)
    (hpi : pi < players.length) (hpos : pos < (players.getD pi default).board.length) :
    ((players.set pi
        { players.getD pi default with board :=
            ((players.getD pi default).board.set pos
              { (players.getD pi default).board.getD pos default with
                health := ((players.getD pi default).board.getD pos default).health - amt
              }) }).map playerBudget).sum
      + destroyedBudget [.damageResolved sp sc tp (some tc) amt]
      ≤ (players.map playerBudget).sum := by
  set P := players.getD pi default with hP
  set C := P.board.getD pos default with hC
  set C' : Card := { C with health := C.health - amt } with hC'
  set P' : Player := { P with board := P.board.set pos C' } with hP'
  simp only [destroyedBudget_cons, destroyedBudget_nil, dBudget]
  have h1 := sumMap_set playerBudget players pi P' hpi
  have hgp : players[pi] = P := by rw [hP]; exact (getD_eq_getElem_of_lt players pi default hpi).symm
  rw [hgp] at h1
  have h3 := sumMap_set effLen P.board pos C' hpos
  have hgb : P.board[pos] = C := by rw [hC]; exact (getD_eq_getElem_of_lt P.board pos default hpos).symm
  rw [hgb] at h3
  have g1 : playerBudget P = (P.board.map effLen).sum := rfl
  have g2 : playerBudget P' = ((P.board.set pos C').map effLen).sum := rfl
  have g3 : effLen C' = C.effects.length := rfl
  have g4 : effLen C = C.effects.length := rfl
  omega

theorem damage_card_budget (s : GameState) (sp : PlayerId) (sc : Option CardId)
    (tp : PlayerId) (tc : CardId) (amt : Int) :
    boardBudget (s.damage_card sp sc tp tc amt).2
      + destroyedBudget (s.damage_card sp sc tp tc amt).1 ≤ boardBudget s := by
  simp only [GameState.damage_card]
  split
  · simp [destroyedBudget]
  · split
    · simp [destroyedBudget]
    next pi hpi =>
      split
      · simp [destroyedBudget]
      next pos hpos =>
        have hpi' : s.players.findIdx? (fun p => p.id == tp) = some pi := hpi
        obtain ⟨hpilt, -, -⟩ := List.findIdx?_eq_some_iff_getElem.mp hpi'
        obtain ⟨hposlt, -, -⟩ := List.findIdx?_eq_some_iff_getElem.mp hpos
        split
        next hdead =>
          exact damage_card_destroyed_step s.players sp sc tp tc amt pi pos hpilt hposlt
        next hlive =>
          exact damage_card_live_step s.players sp sc tp tc amt pi pos hpilt hposlt

mutual

theorem apply_budget (k : EffectKind) (ctx : EffectContext) (s : GameState) :
    boardBudget (k.apply ctx s).2 + destroyedBudget (k.apply ctx s).1 ≤ boardBudget s := by
  cases k with
  | directDamage amount target =>
    simp only [EffectKind.apply]
    split
    · split
      · exact damage_card_budget s ctx.source_player ctx.source_card _ _ amount
      · simp [destroyedBudget]
    · split
      · split
        next ev s1 heq =>
          obtain ⟨hb, hev⟩ := damage_player_budget s ctx.source_player ctx.source_card _ amount
          have hb1 : boardBudget s1 = boardBudget s := by rw [heq] at hb; exact hb
          have he1 : dBudget ev = 0 := hev ev (by rw [heq])
          rw [destroyedBudget_cons, destroyedBudget_nil, hb1, he1]
          omega
        next s1 heq =>
          obtain ⟨hb, -⟩ := damage_player_budget s ctx.source_player ctx.source_card _ amount
          have hb1 : boardBudget s1 = boardBudget s := by rw [heq] at hb; exact hb
          rw [destroyedBudget_nil, hb1]
          omega
      · simp [destroyedBudget]
  | heal amount target =>
    simp only [EffectKind.apply]
    split
    · split
      · split
        next ev s1 heq =>
          obtain ⟨hb, hev⟩ := heal_card_budget s _ _ amount
          have hb1 : boardBudget s1 = boardBudget s := by rw [heq] at hb; exact hb
          have he1 : dBudget ev = 0 := hev ev (by rw [heq])
          rw [destroyedBudget_cons, destroyedBudget_nil, hb1, he1]
          omega
        next s1 heq =>
          obtain ⟨hb, -⟩ := heal_card_budget s _ _ amount
          have hb1 : boardBudget s1 = boardBudget s := by rw [heq] at hb; exact hb
          rw [destroyedBudget_nil, hb1]
          omega
      · simp [destroyedBudget]
    · split
      · split
        next ev s1 heq =>
          obtain ⟨hb, hev⟩ := heal_player_budget s _ amount
          have hb1 : boardBudget s1 = boardBudget s := by rw [heq] at hb; exact hb
          have he1 : dBudget ev = 0 := hev ev (by rw [heq])
          rw [destroyedBudget_cons, destroyedBudget_nil, hb1, he1]
          omega
        next s1 heq =>
          obtain ⟨hb, -⟩ := heal_player_budget s _ amount
          have hb1 : boardBudget s1 = boardBudget s := by rw [heq] at hb; exact hb
          rw [destroyedBudget_nil, hb1]
          omega
      · simp [destroyedBudget]
  | drawCard count target =>
    simp only [EffectKind.apply]
    split
    · obtain ⟨hb, hd⟩ := drawLoop_budget count _ s
      rw [hb, hd]
      omega
    · simp [destroyedBudget]
  | composite effects =>
    simp only [EffectKind.apply]
    exact applyList_budget effects ctx s
  | conditional condition effect =>
    simp only [EffectKind.apply]
    split
    · exact apply_budget effect ctx s
    · simp [destroyedBudget]
termination_by sizeOf k

theorem applyList_budget (ks : List EffectKind) (ctx : EffectContext) (s : GameState) :
    boardBudget (applyKindList ks ctx s).2 + destroyedBudget (applyKindList ks ctx s).1
      ≤ boardBudget s := by
  cases ks with
  | nil => simp [applyKindList, destroyedBudget]
  | cons k ks =>
    simp only [applyKindList]
    have h1 := apply_budget k ctx s
    have h2 := applyList_budget ks ctx (k.apply ctx s).2
    rw [destroyedBudget_append]
    omega
termination_by sizeOf ks

end

theorem push_items_length (st : EffectStack) (e : CardEffect) (ctx : EffectContext) :
    (st.push e ctx).items.length = st.items.length + 1 := by
  simp [EffectStack.push]

theorem foldl_queue_length (ctx : EffectContext) (effs : List CardEffect) :
    ∀ st : EffectStack,
      ((effs.foldl (fun acc effect =>
          if effect.trigger = ctx.trigger then acc.push effect ctx else acc) st).items).length
        ≤ st.items.length + effs.length := by
  induction effs with
  | nil => intro st; simp
  | cons e es ih =>
    intro st
    simp only [List.foldl_cons]
    refine le_trans (ih _) ?_
    by_cases h : e.trigger = ctx.trigger
    · rw [if_pos h, push_items_length]
      simp only [List.length_cons]
      omega
    · rw [if_neg h]
      simp only [List.length_cons]
      omega

theorem queue_card_effects_length (st : EffectStack) (c : Card) (ctx : EffectContext) :
    (queue_card_effects st c ctx).items.length ≤ st.items.length + c.effects.length :=
  foldl_queue_length ctx c.effects st

theorem processEvents_spec (evs : List GameEvent) :
    ∀ (s : GameState) (st : EffectStack),
      boardBudget (processEvents evs s st).1 = boardBudget s ∧
      (processEvents evs s st).2.items.length ≤ st.items.length + destroyedBudget evs := by
  induction evs with
  | nil => intro s st; exact ⟨rfl, by simp [processEvents, destroyedBudget]⟩
  | cons e es ih =>
    intro s st
    cases e with
    | cardDestroyed pid c =>
      obtain ⟨ih1, ih2⟩ := ih ((s.record_event (.cardDestroyed pid c)))
        (queue_card_effects st c
          (((EffectContext.new .onDeath pid
            (s.record_event (.cardDestroyed pid c)).current_player).with_source_card c.id)))
      refine ⟨by rw [show boardBudget (processEvents (GameEvent.cardDestroyed pid c :: es) s st).1 = boardBudget (processEvents es (s.record_event (.cardDestroyed pid c)) _).1 from rfl, ih1]; rfl, ?_⟩
      have hq := queue_card_effects_length st c
        (((EffectContext.new .onDeath pid
          (s.record_event (.cardDestroyed pid c)).current_player).with_source_card c.id))
      rw [destroyedBudget_cons]
      calc (processEvents (GameEvent.cardDestroyed pid c :: es) s st).2.items.length
          = (processEvents es (s.record_event (.cardDestroyed pid c)) _).2.items.length := rfl
        _ ≤ _ + destroyedBudget es := ih2
        _ ≤ st.items.length + c.effects.length + destroyedBudget es := by
            exact Nat.add_le_add_right hq _
        _ ≤ st.items.length + (dBudget (GameEvent.cardDestroyed pid c) + destroyedBudget es) := by
            show _ ≤ st.items.length + (c.effects.length + destroyedBudget es)
            omega
    | cardDrawn pid cid =>
      obtain ⟨ih1, ih2⟩ := ih (s.record_event (.cardDrawn pid cid)) st
      exact ⟨ih1, by rw [destroyedBudget_cons]; exact le_trans ih2 (by simp [dBudget])⟩
    | cardPlayed pid cid t =>
      obtain ⟨ih1, ih2⟩ := ih (s.record_event (.cardPlayed pid cid t)) st
      exact ⟨ih1, by rw [destroyedBudget_cons]; exact le_trans ih2 (by simp [dBudget])⟩
    | attackDeclared a b c' d =>
      obtain ⟨ih1, ih2⟩ := ih (s.record_event (.attackDeclared a b c' d)) st
      exact ⟨ih1, by rw [destroyedBudget_cons]; exact le_trans ih2 (by simp [dBudget])⟩
    | damageResolved a b c' d e' =>
      obtain ⟨ih1, ih2⟩ := ih (s.record_event (.damageResolved a b c' d e')) st
      exact ⟨ih1, by rw [destroyedBudget_cons]; exact le_trans ih2 (by simp [dBudget])⟩
    | cardHealed a b c' =>
      obtain ⟨ih1, ih2⟩ := ih (s.record_event (.cardHealed a b c')) st
      exact ⟨ih1, by rw [destroyedBudget_cons]; exact le_trans ih2 (by simp [dBudget])⟩
    | cardBurned a b =>
      obtain ⟨ih1, ih2⟩ := ih (s.record_event (.cardBurned a b)) st
      exact ⟨ih1, by rw [destroyedBudget_cons]; exact le_trans ih2 (by simp [dBudget])⟩
    | mulliganApplied a b =>
      obtain ⟨ih1, ih2⟩ := ih (s.record_event (.mulliganApplied a b)) st
      exact ⟨ih1, by rw [destroyedBudget_cons]; exact le_trans ih2 (by simp [dBudget])⟩
    | turnEnded a =>
      obtain ⟨ih1, ih2⟩ := ih (s.record_event (.turnEnded a)) st
      exact ⟨ih1, by rw [destroyedBudget_cons]; exact le_trans ih2 (by simp [dBudget])⟩
    | gameWon a b =>
      obtain ⟨ih1, ih2⟩ := ih (s.record_event (.gameWon a b)) st
      exact ⟨ih1, by rw [destroyedBudget_cons]; exact le_trans ih2 (by simp [dBudget])⟩

theorem resolve_all_fuel_empties :
    ∀ (fuel : Nat) (st : EffectStack) (s : GameState),
      st.items.length + boardBudget s ≤ fuel →
      (resolve_all_fuel fuel st s).2.2.items = [] := by
  intro fuel
  induction fuel with
  | zero =>
    intro st s h
    have hempty : st.items = [] := List.length_eq_zero.mp (by omega)
    simp [resolve_all_fuel, hempty]
  | succ fuel ih =>
    intro st s h
    simp only [resolve_all_fuel]
    split
    next hpop =>
      have hempty : st.items = [] := (popMax_eq_none st.items).mp hpop
      simp [hempty]
    next item rest hpop =>
      have hlen : st.items.length = rest.length + 1 :=
        (popMax_perm st.items item rest hpop).length_eq
      split
      next htrig =>
        obtain ⟨hpb, hpl⟩ := processEvents_spec (item.effect.apply item.context s).1
          (item.effect.apply item.context s).2 { st with items := rest }
        have happ : boardBudget (item.effect.apply item.context s).2
            + destroyedBudget (item.effect.apply item.context s).1 ≤ boardBudget s :=
          apply_budget item.effect.kind item.context s
        have hpl' : (processEvents (item.effect.apply item.context s).1
            (item.effect.apply item.context s).2 { st with items := rest }).2.items.length
            ≤ rest.length + destroyedBudget (item.effect.apply item.context s).1 := hpl
        refine ih _ _ ?_
        rw [hpb]
        omega
      next htrig =>
        refine ih _ _ ?_
        show rest.length + boardBudget s ≤ fuel
        omega

theorem findIdx?_set_preserve {α} (l : List α) (i : Nat) (x : α) (pr : α → Bool)
    (h : i < l.length) (hx : pr x = pr l[i]) :
    (l.set i x).findIdx? pr = l.findIdx? pr := by
  induction l generalizing i with
  | nil => simp at h
  | cons a as ih =>
    cases i with
    | zero =>
      simp only [List.getElem_cons_zero] at hx
      simp [List.set, List.findIdx?_cons, hx]
    | succ i =>
      have h' : i < as.length := by simpa using h
      simp only [List.getElem_cons_succ] at hx
      simp [List.set, List.findIdx?_cons, List.findIdx?_start_succ, ih i h' hx]

theorem getD_set_ne {α} (l : List α) (i j : Nat) (x d : α) (h : i ≠ j) :
    (l.set i x).getD j d = l.getD j d := by
  simp [List.getD_eq_getElem?_getD, List.getElem?_set_ne h]

theorem recordAll_players (evs : List GameEvent) :
    ∀ s : GameState, (RuleEngine.recordAll s evs).players = s.players := by
  induction evs with
  | nil => intro s; rfl
  | cons e es ih =>
    intro s
    have h := ih (s.record_event e)
    simpa [RuleEngine.recordAll, List.foldl_cons] using h

theorem damage_card_events (s : GameState) (sp : PlayerId) (sc : Option CardId)
    (tp : PlayerId) (tc : CardId) (amt : Int) (pi pos : Nat)
    (hpi : s.player_index tp = some pi)
    (hpos : (s.players.getD pi default).board.findIdx? (fun c => c.id == tc) = some pos)
    (hamt : 0 < amt) :
    ∃ tail, (s.damage_card sp sc tp tc amt).1
      = GameEvent.damageResolved sp sc tp (some tc) amt :: tail := by
  simp only [GameState.damage_card]
  rw [if_neg (by omega : ¬ amt ≤ 0)]
  simp only [hpi, hpos]
  split
  · exact ⟨_, rfl⟩
  · exact ⟨_, rfl⟩

theorem damage_card_players_shape (s : GameState) (sp : PlayerId) (sc : Option CardId)
    (tp : PlayerId) (tc : CardId) (amt : Int) (pi : Nat)
    (hpi : s.player_index tp = some pi) :
    (s.damage_card sp sc tp tc amt).2.players = s.players ∨
    ∃ P', (s.damage_card sp sc tp tc amt).2.players = s.players.set pi P'
      ∧ P'.id = (s.players.getD pi default).id
      ∧ ∀ q, q ≠ pi → (s.players.set pi P').getD q default = s.players.getD q default := by
  simp only [GameState.damage_card]
  split
  · exact Or.inl rfl
  · simp only [hpi]
    split
    · exact Or.inl rfl
    next pos hpos =>
      split
      · exact Or.inr ⟨_, rfl, rfl, fun q hq => getD_set_ne _ _ _ _ _ (fun he => hq he.symm)⟩
      · exact Or.inr ⟨_, rfl, rfl, fun q hq => getD_set_ne _ _ _ _ _ (fun he => hq he.symm)⟩

/-- C4: resolve_all terminates for every state and every finite stack of queued effects —
with `stackMeasure` fuel the loop provably drains the stack to empty, even though each
CardDestroyed event produced during resolution queues the dead card's OnDeath effects onto
the same stack (each such cascade is paid for by the card leaving a board, which is what
`boardBudget` measures). -/
theorem resolve_all_terminates (st : EffectStack) (s : GameState) :
    (resolve_all st s).2.2.items = [] :=
  resolve_all_fuel_empties (stackMeasure st s) st s (le_refl _)

/-- C8: for a successful attack against a defender card, the defender takes damage equal
to the attacker's attack (a DamageResolved event targeting the defender card with that
amount), and when the defender is a Unit with positive attack the attacker takes
retaliation damage equal to the defender's pre-damage attack value, even if the defender
was destroyed by the attacker's hit. -/
theorem attack_retaliation_pre_damage
    (s : GameState) (a : AttackAction) (ai di pos dpos : Nat) (atk df : Card) (dfId : CardId)
    (h0 : s.outcome = none)
    (h1 : s.integrity_check = none)
    (h2 : s.current_player = a.attacker_owner)
    (h3 : s.phase = .combat)
    (h4 : s.player_index a.defender_owner = some di)
    (h5 : a.defender_owner ≠ a.attacker_owner)
    (h6 : s.player_index a.attacker_owner = some ai)
    (hne : ai ≠ di)
    (h7 : (s.players.getD ai default).board.findIdx? (fun c => c.id == a.attacker_id)
      = some pos)
    (hatk : (s.players.getD ai default).board.getD pos default = atk)
    (hunit : atk.card_type = .unit)
    (hexh : atk.exhausted = false)
    (hatkpos : 0 < atk.attack)
    (hid : atk.id = a.attacker_id)
    (hdf : a.defender_card = some dfId)
    (hfind : (s.players.getD di default).board.find? (fun c => c.id == dfId) = some df)
    (hdfpos : (s.players.getD di default).board.findIdx? (fun c => c.id == dfId) = some dpos)
    (hdfid : df.id = dfId) :
    ∃ evs s', RuleEngine.attack s a = (.ok evs, s') ∧
      GameEvent.damageResolved a.attacker_owner (some a.attacker_id) a.defender_owner
        (some dfId) atk.attack ∈ evs ∧
      (df.card_type = .unit → 0 < df.attack →
        GameEvent.damageResolved a.defender_owner (some dfId) a.attacker_owner
          (some a.attacker_id) df.attack ∈ evs) := by
  have hfin : s.is_finished = false := by simp [GameState.is_finished, h0]
  have h9 : ¬ atk.attack ≤ 0 := by omega
  have h4' : s.players.findIdx? (fun p => p.id == a.defender_owner) = some di := h4
  have h6' : s.players.findIdx? (fun p => p.id == a.attacker_owner) = some ai := h6
  obtain ⟨hailt, -, -⟩ := List.findIdx?_eq_some_iff_getElem.mp h6'
  obtain ⟨hdilt, -, -⟩ := List.findIdx?_eq_some_iff_getElem.mp h4'
  obtain ⟨hposlt, -, -⟩ := List.findIdx?_eq_some_iff_getElem.mp h7
  have h7n := h7
  have hatkn := hatk
  simp only [List.getD_eq_getElem?_getD] at h7n hatkn
  have hgates : RuleEngine.attack_gates s a = .ok (ai, pos, atk) := by
    simp [RuleEngine.attack_gates, hfin, h1, h2, h3, h4, h5, h6, h7n, hatkn, hunit, hexh, h9]
  simp only [RuleEngine.attack, hgates, hdf, GameState.record_event,
    GameState.player_index, hatk]
  set P0 := s.players.getD ai default with hP0
  set exhCard : Card := { atk with exhausted := true } with hexhCard
  set XP : Player := { P0 with board := P0.board.set pos exhCard } with hXP
  have hidx : (s.players.set ai XP).findIdx? (fun p => p.id == a.defender_owner)
      = some di := by
    rw [findIdx?_set_preserve s.players ai XP _ hailt ?hx]
    · exact h4'
    case hx =>
      rw [← getD_eq_getElem_of_lt s.players ai default hailt, ← hP0]
  simp only [hidx]
  have hgdi : (s.players.set ai XP).getD di default = s.players.getD di default :=
    getD_set_ne _ _ _ _ _ hne
  simp only [hgdi, hfind]
  simp only [hid, hdfid]
  set s2 : GameState := { s with players := s.players.set ai XP, event_log := s.event_log ++ [GameEvent.attackDeclared a.attacker_owner a.attacker_id a.defender_owner (some dfId)] } with hs2
  have hA : s2.player_index a.defender_owner = some di := hidx
  have hB : (s2.players.getD di default).board.findIdx? (fun c => c.id == dfId)
      = some dpos := by
    have h : s2.players.getD di default = s.players.getD di default := hgdi
    rw [h]; exact hdfpos
  set dmg := s2.damage_card a.attacker_owner (some a.attacker_id) a.defender_owner dfId
    atk.attack with hdmg
  set s3 := RuleEngine.recordAll dmg.2 dmg.1 with hs3
  set ret := s3.damage_card a.defender_owner (some dfId) a.attacker_owner a.attacker_id
    df.attack with hret
  obtain ⟨tail1, htail1⟩ := damage_card_events s2 a.attacker_owner (some a.attacker_id)
    a.defender_owner dfId atk.attack di dpos hA hB hatkpos
  rw [← hdmg] at htail1
  have hidxA : (s.players.set ai XP).findIdx? (fun p => p.id == a.attacker_owner)
      = some ai := by
    rw [findIdx?_set_preserve s.players ai XP _ hailt ?hx2]
    · exact h6'
    case hx2 =>
      rw [← getD_eq_getElem_of_lt s.players ai default hailt, ← hP0]
  have hgetDai : (s.players.set ai XP).getD ai default = XP := by
    rw [getD_eq_getElem_of_lt _ _ _ (by simpa using hailt)]
    exact List.getElem_set_self _
  have hidxB : XP.board.findIdx? (fun c => c.id == a.attacker_id) = some pos := by
    show (P0.board.set pos exhCard).findIdx? _ = some pos
    rw [findIdx?_set_preserve P0.board pos exhCard _ hposlt ?hx3]
    · exact h7
    case hx3 =>
      rw [← getD_eq_getElem_of_lt P0.board pos default hposlt, hatk]
  have hshape := damage_card_players_shape s2 a.attacker_owner (some a.attacker_id)
    a.defender_owner dfId atk.attack di hA
  rw [← hdmg] at hshape
  have hA2 : s3.player_index a.attacker_owner = some ai := by
    show s3.players.findIdx? (fun p => p.id == a.attacker_owner) = some ai
    rw [hs3, recordAll_players]
    rcases hshape with heqp | ⟨P', hset', hpid', -⟩
    · rw [heqp]; exact hidxA
    · rw [hset']
      rw [findIdx?_set_preserve s2.players di P' _ ?hlen ?hpr]
      · exact hidxA
      case hlen =>
        show di < (s.players.set ai XP).length
        simpa using hdilt
      case hpr =>
        have hdi2 : di < s2.players.length := by
          show di < (s.players.set ai XP).length
          simpa using hdilt
        rw [← getD_eq_getElem_of_lt s2.players di default hdi2, ← hpid']
  have hB2 : (s3.players.getD ai default).board.findIdx? (fun c => c.id == a.attacker_id)
      = some pos := by
    rw [hs3, recordAll_players]
    rcases hshape with heqp | ⟨P', hset', -, hother'⟩
    · rw [heqp]
      have h : s2.players.getD ai default = XP := hgetDai
      rw [h]; exact hidxB
    · rw [hset']
      have h := hother' ai hne
      rw [h]
      have h2 : s2.players.getD ai default = XP := hgetDai
      rw [h2]; exact hidxB
  by_cases hcase : df.card_type = CardType.unit ∧ 0 < df.attack
  · have hb : (decide (df.card_type = CardType.unit) && decide (df.attack > 0)) = true := by
      simp [hcase.1, hcase.2]
    rw [if_pos hb]
    obtain ⟨tail2, htail2⟩ := damage_card_events s3 a.defender_owner (some dfId)
      a.attacker_owner a.attacker_id df.attack ai pos hA2 hB2 hcase.2
    rw [← hret] at htail2
    refine ⟨_, _, rfl, ?_, ?_⟩
    · rw [htail1]; simp
    · intro _ _
      rw [htail2, htail1]; simp
  · have hnb : ¬ ((decide (df.card_type = CardType.unit) && decide (df.attack > 0)) = true) := by
      rcases Decidable.em (df.card_type = CardType.unit) with hu | hu
      · have hv : ¬ 0 < df.attack := fun hv => hcase ⟨hu, hv⟩
        simp [hv]
      · simp [hu]
    rw [if_neg hnb]
    refine ⟨_, _, rfl, ?_, ?_⟩
    · rw [htail1]; simp
    · intro hdft hdfa
      exact absurd ⟨hdft, hdfa⟩ hcase

/-- C8 witness: a concrete combat where both damage events occur. -/
theorem attack_retaliation_pre_damage_witness :
    (0:Int) < C8Attacker.attack ∧
    (∃ evs s', RuleEngine.attack C8State C8Action = (.ok evs, s') ∧
      GameEvent.damageResolved C8Action.attacker_owner (some C8Action.attacker_id)
        C8Action.defender_owner (some 20) C8Attacker.attack ∈ evs ∧
      (C8Defender.card_type = .unit → 0 < C8Defender.attack →
        GameEvent.damageResolved C8Action.defender_owner (some 20)
          C8Action.attacker_owner (some C8Action.attacker_id) C8Defender.attack ∈ evs)) :=
  ⟨by decide, attack_retaliation_pre_damage C8State C8Action 0 1 0 0 C8Attacker C8Defender 20
    rfl rfl rfl rfl rfl (by decide) rfl (by decide) rfl rfl rfl rfl (by decide) rfl rfl rfl rfl rfl⟩

theorem pollDeadline_none (c : Clock) : pollDeadline none c = (false, c) := rfl

theorem handLoop_none (state : GameState) (actor : PlayerId) (mana : Nat) :
    ∀ (cards : List Card) (seen : List GameAction) (actions : List (GameAction × GameState))
      (c : Clock),
      handLoop state actor mana none cards seen actions c
        = ((handLoopP state actor mana cards seen actions).1,
           (handLoopP state actor mana cards seen actions).2, c) := by
  intro cards
  induction cards with
  | nil => intro seen actions c; simp [handLoop, handLoopP]
  | cons card rest ih =>
    intro seen actions c
    simp [handLoop, handLoopP, pollDeadline_none, ih]
    split <;> rfl

theorem attackLoop_none (state : GameState) (actor opponent : PlayerId)
    (defender_board : List CardId) :
    ∀ (cards : List Card) (seen : List GameAction) (actions : List (GameAction × GameState))
      (c : Clock),
      attackLoop state actor opponent defender_board none cards seen actions c
        = ((attackLoopP state actor opponent defender_board cards seen actions).1,
           (attackLoopP state actor opponent defender_board cards seen actions).2, c) := by
  intro cards
  induction cards with
  | nil => intro seen actions c; simp [attackLoop, attackLoopP]
  | cons card rest ih =>
    intro seen actions c
    simp [attackLoop, attackLoopP, pollDeadline_none, ih]
    split <;> rfl

theorem generate_transitions_none (cfg : AiConfig) (r : Rng) (c : Clock) (state : GameState)
    (actor : PlayerId) (hr : cfg.randomness = 0) :
    generate_transitions cfg r c state actor none
      = (generate_transitionsP state actor, r, c) := by
  have p1 : (pollDeadline none c).1 = false := rfl
  have p2 : (pollDeadline none c).2 = c := rfl
  simp only [generate_transitions, generate_transitionsP, p1, p2, hr,
    Bool.false_eq_true, if_false, lt_self_iff_false]
  split
  · split <;> rfl
  · cases hgp : state.get_player actor with
    | none =>
      simp only [hgp]
      try split <;> first | rfl | (split <;> rfl)
    | some player =>
      simp only [hgp, handLoop_none, attackLoop_none]
      cases hop : state.opponent_of actor with
      | none =>
        simp only [hop]
        try split <;> first | rfl | (split <;> rfl)
      | some opponent =>
        simp only [hop]
        try split <;> first | rfl | (split <;> rfl)

theorem minimax_rec_none (cfg : AiConfig) (rp : PlayerId) (hr : cfg.randomness = 0) :
    ∀ (d : Nat) (state : GameState) (alpha beta : Score) (stats : SearchStats)
      (r : Rng) (c : Clock),
      minimax_rec cfg state d alpha beta rp none stats r c
        = ((minimax_recP cfg state d alpha beta rp stats).1,
           (minimax_recP cfg state d alpha beta rp stats).2, r, c) := by
  intro d
  induction d using Nat.strong_induction_on with
  | _ d ih =>
    intro state alpha beta stats r c
    have p1 : (pollDeadline none c).1 = false := rfl
    have p2 : (pollDeadline none c).2 = c := rfl
    unfold minimax_rec minimax_recP
    simp only [p1, p2, Bool.false_eq_true, if_false]
    split
    · rfl
    next h =>
      have hd : d - 1 < d := by
        have hd0 : d ≠ 0 := fun h0 => h (Or.inl h0)
        omega
      rw [generate_transitions_none cfg r c state state.current_player hr]
      have hloop : ∀ (maxi : Bool) (ts : List (GameAction × GameState)) (value alpha beta : Score)
          (stats : SearchStats) (r : Rng) (c : Clock),
          minimaxLoop cfg maxi ts (d - 1) value alpha beta rp none stats r c
            = ((minimaxLoopP cfg maxi ts (d - 1) value alpha beta rp stats).1,
               (minimaxLoopP cfg maxi ts (d - 1) value alpha beta rp stats).2, r, c) := by
        intro maxi ts
        induction ts with
        | nil =>
          intro value alpha beta stats r c
          unfold minimaxLoop minimaxLoopP
          rfl
        | cons t rest ihts =>
          intro value alpha beta stats r c
          unfold minimaxLoop minimaxLoopP
          rw [ih (d - 1) hd]
          dsimp only
          split
          · split
            · rfl
            · exact ihts _ _ _ _ _ _
          · split
            · rfl
            · exact ihts _ _ _ _ _ _
      split
      · rfl
      · split
        · exact hloop true _ _ _ _ _ _ _
        · exact hloop false _ _ _ _ _ _ _

theorem decideLoop_none (cfg : AiConfig) (pid : PlayerId) (hr : cfg.randomness = 0) :
    ∀ (ts : List (GameAction × GameState)) (depth : Nat) (maxi : Bool)
      (ba : Option GameAction) (bs bc alpha beta : Score) (stats : SearchStats)
      (r : Rng) (c : Clock),
      decideLoop cfg ts depth maxi pid none ba bs bc alpha beta stats r c
        = ((decideLoopP cfg ts depth maxi pid ba bs bc alpha beta stats).1,
           (decideLoopP cfg ts depth maxi pid ba bs bc alpha beta stats).2.1,
           (decideLoopP cfg ts depth maxi pid ba bs bc alpha beta stats).2.2, r, c) := by
  intro ts
  induction ts with
  | nil => intro depth maxi ba bs bc alpha beta stats r c; rfl
  | cons t rest ihts =>
    intro depth maxi ba bs bc alpha beta stats r c
    unfold decideLoop decideLoopP
    rw [minimax_rec_none cfg pid hr depth]
    rw [hr]
    simp only [lt_self_iff_false, if_false]
    split
    · rfl
    · split <;> split <;> first | rfl | exact ihts _ _ _ _ _ _ _ _ _ _

/-- C9 (amended with "strategy is not Random"): for an agent whose config has
randomness = 0 and time_limit = 0 and whose strategy is not Random, the action chosen
by decide_action does not depend on the PRNG or clock oracle states, so any two calls
on equal input states (in particular two successive calls of one seeded agent, whose
PRNG state has advanced in between) return the same chosen action.  The original
claim, covering every strategy, is refuted by the Random-strategy counterexample:
random_decision shuffles unconditionally, whatever the configured randomness. -/
theorem decide_action_deterministic (cfg : AiConfig) (state : GameState) (pid : PlayerId)
    (r1 r2 : Rng) (c1 c2 : Clock) (hr : cfg.randomness = 0) (ht : cfg.time_limit = 0)
    (hs : cfg.strategy ≠ .random) :
    (decide_action ⟨cfg, r1⟩ c1 state pid).1.action
      = (decide_action ⟨cfg, r2⟩ c2 state pid).1.action := by
  simp only [decide_action, ht, if_pos, if_neg hs]
  rw [generate_transitions_none cfg r1 c1.now.2 state state.current_player hr,
      generate_transitions_none cfg r2 c2.now.2 state state.current_player hr]
  simp only [decideLoop_none cfg pid hr]
  split
  · rfl
  · split
    · rfl
    · rfl

/-- C9 counterexample to the claim as stated: with strategy Random, randomness = 0
and time_limit = 0, two calls of decide_action on the same state pick different actions
once the PRNG state has advanced (modelled by the two oracle states C9rngA, C9rngB). -/
theorem random_strategy_two_runs_differ :
    (decide_action ⟨C9cfgRandom, C9rngA⟩ C9clock C8State 0).1.action
        = some (GameAction.attack ⟨0, 10, 1, none⟩) ∧
      (decide_action ⟨C9cfgRandom, C9rngB⟩ C9clock C8State 0).1.action
        = some (GameAction.attack ⟨0, 10, 1, some 20⟩) :=
  ⟨rfl, rfl⟩

/-- C9 witness: a concrete non-Random config satisfying every hypothesis of the
amended determinism theorem. -/
theorem decide_action_deterministic_witness :
    C9cfgControl.randomness = 0 ∧ C9cfgControl.time_limit = 0 ∧
      C9cfgControl.strategy ≠ .random ∧
      (decide_action ⟨C9cfgControl, C9rngA⟩ C9clock C8State 0).1.action
        = (decide_action ⟨C9cfgControl, C9rngB⟩ C9clock C8State 0).1.action :=
  ⟨rfl, rfl, by decide,
    decide_action_deterministic C9cfgControl C8State 0 C9rngA C9rngB C9clock C9clock
      rfl rfl (by decide)⟩

end Xinyun
